import Mathlib

/-!
Verification development for the CommitToShip milestone escrow core: the
Milestone State Machine and the automated market-cap confirmation engine
implemented in `src/app/api/admin/commitments/update/route.ts` (the
market-cap resolver `POST` handler and its helpers).

Modelling conventions (shallow embedding):
* JavaScript `number` values are modelled as `ℚ`.  `NaN`/`±Infinity` are
  modelled by the `JsNum.nan` constructor where a `Number.isFinite` check in
  the source is load-bearing (milestone amount/threshold fields); elsewhere
  numbers are plain `ℚ` and `Number.isFinite` is vacuously true.
* `String#trim` / `String#toLowerCase` are modelled by `jsTrim` / `jsToLower`
  over the underlying character list.
* The persistence layer (`escrowStore`, `tokenMarketStore`,
  `marketCapMilestonesStore`) and the DexScreener helper module are not part
  of the provided sources; their operations are modelled from the spec and
  marked `Modelled from the spec:` in their doc comments.
* Network effects are modelled by a deterministic environment (`ChainEnv`)
  passed to the orchestrator; the audit sink, HTTP auth wrappers and rate
  limiting are out of scope (treated as external collaborators by the spec)
  and are omitted.
* The `autoEvidence` / `evidenceJson` payloads are large JSON blobs; they are
  modelled by a structured projection (`MarketCapEvidence`) carrying the
  numeric fields; no claim inspects the full payload.
-/

/-- JS whitespace trim, modelled over the character list (`String#trim`). -/
def jsTrimList (l : List Char) : List Char :=
  ((l.dropWhile Char.isWhitespace).reverse.dropWhile Char.isWhitespace).reverse

/-- `String#trim`. -/
def jsTrim (s : String) : String := String.mk (jsTrimList s.data)

/-- `String#toLowerCase`. -/
def jsToLower (s : String) : String := String.mk (s.data.map Char.toLower)

/-- A JavaScript `number`: either a finite value (as a rational) or a
non-finite value (`NaN`, `±Infinity`), which `Number.isFinite` rejects. -/
inductive JsNum where
  | nan : JsNum
  | num (q : ℚ) : JsNum
  deriving DecidableEq, Repr

namespace JsNum

/-- `Number.isFinite`. -/
def isFinite : JsNum → Bool
  | .nan => false
  | .num _ => true

/-- The finite value (only meaningful when `isFinite`). -/
def val : JsNum → ℚ
  | .nan => 0
  | .num q => q

/-- `Number.isFinite x && x > 0` from the source guards. -/
def finitePos : JsNum → Bool
  | .nan => false
  | .num q => decide (0 < q)

/-- `Number(x || 0)`: JS `||` replaces the falsy values `NaN` and `0` by `0`,
so the result is the finite value of `x`, with `NaN` collapsed to `0`. -/
def orZero : JsNum → ℚ
  | .nan => 0
  | .num q => q

end JsNum

/-- Milestone status; the source stores these as the strings
`"locked" | "approved" | "claimable" | "released"`. -/
inductive MilestoneStatus where
  | locked
  | approved
  | claimable
  | released
  deriving DecidableEq, Repr

/-- Structured projection of the `evidence` object assembled by the
orchestrator before confirmation (the source serializes the full object to
JSON; only these numeric fields are modelled). -/
structure MarketCapEvidence where
  tokenMint : String
  chainId : String
  thresholdUsd : ℚ
  confirmedAtUnix : ℤ
  hitAtUnix : ℤ
  hitPriceUsd : ℚ
  pairAddress : String
  dexId : String
  minPriceUsd : ℚ
  sinceUnix : ℤ
  deriving DecidableEq, Repr

/-- A reward milestone (`RewardMilestone` from `escrowStore`, reconstructed
from the fields the orchestrator reads and writes). -/
structure RewardMilestone where
  id : String
  status : MilestoneStatus
  unlockLamports : JsNum
  unlockPercent : JsNum
  autoKind : String
  marketCapThresholdUsd : JsNum
  requireNoMintAuthority : Option String
  completedAtUnix : Option ℤ
  approvedAtUnix : Option ℤ
  claimableAtUnix : Option ℤ
  becameClaimableAtUnix : Option ℤ
  autoConfirmedAtUnix : Option ℤ
  autoEvidence : Option MarketCapEvidence
  deriving DecidableEq, Repr

/-- A commitment record (fields the orchestrator reads and writes). -/
structure Commitment where
  id : String
  kind : String
  tokenMint : String
  escrowPubkey : String
  status : String
  unlockedLamports : ℚ
  totalFundedLamports : ℚ
  milestones : List RewardMilestone
  deriving DecidableEq, Repr

/-- A pinned canonical trading pair for a (token, chain). -/
structure CanonicalPair where
  tokenMint : String
  chainId : String
  pairAddress : String
  dexId : String
  url : Option String
  deriving DecidableEq, Repr

/-- One appended price observation. -/
structure TokenMarketSnapshot where
  tokenMint : String
  chainId : String
  pairAddress : String
  dexId : String
  fetchedAtUnix : ℤ
  priceUsd : ℚ
  liquidityUsd : ℚ
  volumeH1Usd : ℚ
  volumeH24Usd : ℚ
  fdvUsd : Option ℚ
  marketCapUsd : Option ℚ
  deriving DecidableEq, Repr

/-- The confirmation record protected by the idempotent ledger (its key is the
(commitmentId, milestoneId) pair; the `evidenceJson` blob is not modelled). -/
structure MarketCapConfirmation where
  commitmentId : String
  milestoneId : String
  tokenMint : String
  confirmedAtUnix : ℤ
  totalFundedLamports : ℚ
  unlockLamports : ℚ
  thresholdUsd : ℚ
  chainId : String
  pairAddress : String
  dexId : String
  deriving DecidableEq, Repr

/-- A candidate pair returned by the external price feed (DexScreener); the
nested optional `liquidity.usd` / `volume.h1` / `volume.h24` fields are
modelled flat, with the source's `Number(x ?? 0)` defaulting applied by the
caller. -/
structure DexPair where
  chainId : String
  pairAddress : String
  dexId : String
  priceUsd : ℚ
  liquidityUsd : ℚ
  volumeH1Usd : ℚ
  volumeH24Usd : ℚ
  fdvUsd : Option ℚ
  marketCapUsd : Option ℚ
  url : Option String
  deriving DecidableEq, Repr

/-- The persistent store visible to the orchestrator. -/
structure EscrowStore where
  commitments : List Commitment
  canonicalPairs : List CanonicalPair
  snapshots : List TokenMarketSnapshot
  confirmations : List MarketCapConfirmation
  deriving DecidableEq, Repr

/-- Modelled from the spec: `getCanonicalPair` of `tokenMarketStore` — look up
the pinned pair for (token, chain). -/
def getCanonicalPair (ps : List CanonicalPair) (tokenMint chainId : String) : Option CanonicalPair :=
  ps.find? (fun p => p.tokenMint == tokenMint && p.chainId == chainId)

/-- Modelled from the spec: `upsertCanonicalPair` of `tokenMarketStore`
(§4.1: on first successful selection persist the pin permanently; later calls
must not overwrite `pairAddress`/`dexId`, only `url` may be refreshed; the
source comment at the call site states the same freeze). -/
def upsertCanonicalPair (ps : List CanonicalPair) (c : CanonicalPair) : List CanonicalPair :=
  if ps.any (fun p => p.tokenMint == c.tokenMint && p.chainId == c.chainId) then
    ps.map (fun p =>
      if p.tokenMint == c.tokenMint && p.chainId == c.chainId then { p with url := c.url } else p)
  else
    ps ++ [c]

/-- Modelled from the spec: `findFirstTokenMarketSnapshotAbovePrice` of
`tokenMarketStore` (§4.2: scan the snapshot history of the (token, chain,
pair) in fetch-time order, starting at `sinceUnix`, and return the first
record meeting the price, liquidity and 1-hour-volume floors).  The snapshot
log is append-only and appended in fetch-time order, so list order is scan
order. -/
def findFirstTokenMarketSnapshotAbovePrice (snaps : List TokenMarketSnapshot)
    (tokenMint chainId pairAddress : String) (sinceUnix : ℤ)
    (minPriceUsd minLiquidityUsd minVolumeH1Usd : ℚ) : Option TokenMarketSnapshot :=
  snaps.find? (fun s =>
    s.tokenMint == tokenMint && s.chainId == chainId && s.pairAddress == pairAddress &&
    decide (sinceUnix ≤ s.fetchedAtUnix) &&
    decide (minPriceUsd ≤ s.priceUsd) && decide (minLiquidityUsd ≤ s.liquidityUsd) &&
    decide (minVolumeH1Usd ≤ s.volumeH1Usd))

/-- Outcome of the ledger acquire: either this caller inserted the record, or
a record for the same (commitment, milestone) key already existed. -/
inductive AcquireOutcome where
  | fresh : AcquireOutcome
  | dup (existing : MarketCapConfirmation) : AcquireOutcome
  deriving DecidableEq, Repr

/-- Modelled from the spec: `tryAcquireMarketCapMilestoneConfirmation` of
`marketCapMilestonesStore` (§4.4: a single atomic insert keyed by
(commitmentId, milestoneId) that fails soft, returning the existing row,
when a row already exists). -/
def tryAcquireMarketCapMilestoneConfirmation (ledger : List MarketCapConfirmation)
    (conf : MarketCapConfirmation) : AcquireOutcome × List MarketCapConfirmation :=
  match ledger.find? (fun e => e.commitmentId == conf.commitmentId && e.milestoneId == conf.milestoneId) with
  | some e => (.dup e, ledger)
  | none => (.fresh, ledger ++ [conf])

/-- Modelled from the spec: `pickBestDexScreenerPair` of the DexScreener
helper (§4.1: select the candidate with the highest liquidity that is on the
matching chain and meets the liquidity floor; none if no candidate
qualifies). -/
def pickBestDexScreenerPair (pairs : List DexPair) (chainId : String)
    (minLiquidityUsd : ℚ) : Option DexPair :=
  (pairs.filter (fun p => p.chainId == chainId && decide (minLiquidityUsd ≤ p.liquidityUsd))).foldl
    (fun best p =>
      match best with
      | none => some p
      | some b => if b.liquidityUsd < p.liquidityUsd then some p else some b)
    none

/-- Modelled from the spec: `sumReleasedLamports` of `escrowStore` (§4.5
step 3: the "already-released amount" — the unlock amounts of milestones
already in the released state). -/
def sumReleasedLamports (milestones : List RewardMilestone) : ℚ :=
  milestones.foldl
    (fun acc m => if m.status = .released then acc + m.unlockLamports.orZero else acc) 0

/-- Source `computeUnlockedLamports` (route.ts:128): sum of `unlockLamports`
over milestones whose status is claimable or released. -/
def computeUnlockedLamports (milestones : List RewardMilestone) : ℚ :=
  milestones.foldl
    (fun acc m =>
      if m.status = .claimable ∨ m.status = .released then acc + m.unlockLamports.orZero
      else acc)
    0

/-- Source `computeUnlockLamports` (route.ts:189): absolute amount when
finite and positive, else percentage of the funded total when finite and
positive, else 0; `Math.floor` applied in both branches. -/
def computeUnlockLamports (milestone : RewardMilestone) (totalFundedLamports : ℚ) : ℚ :=
  if milestone.unlockLamports.finitePos then
    ((⌊milestone.unlockLamports.val⌋ : ℤ) : ℚ)
  else if milestone.unlockPercent.finitePos then
    ((⌊totalFundedLamports * milestone.unlockPercent.val / 100⌋ : ℤ) : ℚ)
  else 0

/-- Big-endian decimal digits of `n`, as `BigInt#toString` produces them
(`"0"` for zero). -/
def digitsBE (n : ℕ) : List ℕ :=
  if n = 0 then [0] else (Nat.digits 10 n).reverse

/-- `String#padStart(d, "0")` on a digit list. -/
def listPadStart (d : ℕ) (l : List ℕ) : List ℕ :=
  List.replicate (d - l.length) 0 ++ l

/-- The numeric value of a big-endian digit list (what `Number("0." ++ s)`
reads off the sliced fraction string, scaled by its length). -/
def ofDigitsBE (l : List ℕ) : ℕ :=
  l.foldl (fun acc d => 10 * acc + d) 0

/-- Source `supplyUiAmount` (route.ts:199): display amount of a raw integer
supply — BigInt quotient and remainder by `10^decimals` (decimals clamped to
[0, 18]), the remainder rendered as a zero-padded digit string and truncated
to its first 9 digits.  The on-chain decimal count is integral, so the
source's `Math.floor(input.decimals)` is the identity and `decimals` is
modelled as `ℤ`. -/
def supplyUiAmount (supplyRaw : ℕ) (decimals : ℤ) : ℚ :=
  let d : ℕ := (min 18 (max 0 decimals)).toNat
  let div : ℕ := 10 ^ d
  let whole : ℕ := supplyRaw / div
  let frac : ℕ := supplyRaw % div
  let fracDigits : List ℕ := (listPadStart d (digitsBE frac)).take 9
  let fracNum : ℚ :=
    if fracDigits.length = 0 then 0
    else (ofDigitsBE fracDigits : ℚ) / (10 : ℚ) ^ fracDigits.length
  (whole : ℚ) + fracNum

/-- The spec's description of the supply computation (§4.2 numeric
semantics), stated independently of the digit-string mechanics: integer
quotient and remainder by `10^decimals`, with the fractional remainder
truncated to at most 9 digits.  Used to check `supplyUiAmount` against the
spec's words. -/
def supplyUiAmountSpec (supplyRaw : ℕ) (decimals : ℤ) : ℚ :=
  let d : ℕ := (min 18 (max 0 decimals)).toNat
  let keep : ℕ := min d 9
  let whole : ℕ := supplyRaw / 10 ^ d
  let frac : ℕ := supplyRaw % 10 ^ d
  (whole : ℚ) + ((frac / 10 ^ (d - keep) : ℕ) : ℚ) / (10 : ℚ) ^ keep

/-- Outcome of `ingestLatestSnapshot`. -/
inductive IngestOutcome where
  | ok (pairAddress dexId : String) : IngestOutcome
  | fail (error : String) : IngestOutcome
  deriving DecidableEq, Repr

/-- Source `ingestLatestSnapshot` (route.ts:210): resolve the canonical pair
(sticky pin), validate the chosen feed pair, freeze the pin, and append one
price snapshot.  The feed response (`fetchDexScreenerPairsByTokenMint`) is
passed in as `feedPairs`. -/
def ingestLatestSnapshot (feedPairs : List DexPair) (store : EscrowStore)
    (tokenMint0 chainId0 : String) (minLiquidityUsd : ℚ) (nowUnix : ℤ) :
    IngestOutcome × EscrowStore :=
  let tokenMint := jsTrim tokenMint0
  let chainId := jsToLower (jsTrim chainId0)
  let existingCanonical := getCanonicalPair store.canonicalPairs tokenMint chainId
  let pairs := feedPairs
  let canonicalPairAddress :=
    jsTrim (match existingCanonical with | some c => c.pairAddress | none => "")
  let canonicalFromFeed :=
    if canonicalPairAddress ≠ "" then
      pairs.find? (fun p => jsTrim p.pairAddress == canonicalPairAddress)
    else none
  let best :=
    match canonicalFromFeed with
    | some p => some p
    | none => pickBestDexScreenerPair pairs chainId minLiquidityUsd
  match best with
  | none => (.fail "No suitable pair", store)
  | some b =>
    let pairAddress := jsTrim b.pairAddress
    let dexId := jsTrim b.dexId
    let priceUsd := b.priceUsd
    if pairAddress = "" ∨ dexId = "" then (.fail "Invalid pair", store)
    else if ¬ (0 < priceUsd) then (.fail "Invalid price", store)
    else
      let store1 := { store with
        canonicalPairs := upsertCanonicalPair store.canonicalPairs
          { tokenMint := tokenMint, chainId := chainId, pairAddress := pairAddress,
            dexId := dexId, url := b.url } }
      let store2 := { store1 with
        snapshots := store1.snapshots ++
          [{ tokenMint := tokenMint, chainId := chainId, pairAddress := pairAddress,
             dexId := dexId, fetchedAtUnix := nowUnix, priceUsd := priceUsd,
             liquidityUsd := b.liquidityUsd, volumeH1Usd := b.volumeH1Usd,
             volumeH24Usd := b.volumeH24Usd, fdvUsd := b.fdvUsd,
             marketCapUsd := b.marketCapUsd }] }
      (.ok pairAddress dexId, store2)

/-- Source `isMarketCapMilestone` (route.ts:262). -/
def isMarketCapMilestone (m : RewardMilestone) : Bool :=
  m.autoKind == "market_cap"

/-- The deterministic chain/feed environment for one orchestrator run: chain
clock, the feed response per token, mint existence info (parsed supply and
decimal count; `none` models the source's combined `!exists ||
!isMintAccount || !supply || decimals == null` failure), the current
mint/freeze authority, and escrow balances. -/
structure ChainEnv where
  nowUnix : ℤ
  feedPairs : String → List DexPair
  mintInfo : String → Option (ℕ × ℤ)
  mintAuthority : String → Option String
  balanceLamports : String → ℤ

/-- The configuration surface read from the environment at the start of a
run (the unused sustained-confirmation knobs are discarded by the source via
`void`). -/
structure RunConfig where
  minLiquidityUsd : ℚ
  minVolumeH1Usd : ℚ
  claimDelaySeconds : ℤ
  lookbackSeconds : ℤ
  deriving DecidableEq, Repr

/-- The source's defaults: liquidity floor 50000 USD, volume floor 0,
claim delay 48 hours, lookback 365 days. -/
def defaultRunConfig : RunConfig :=
  { minLiquidityUsd := 50000, minVolumeH1Usd := 0,
    claimDelaySeconds := 48 * 60 * 60, lookbackSeconds := 365 * 24 * 60 * 60 }

/-- Observable actions of a run: threshold-evaluator invocations, ledger
acquire attempts, and commitment state writes
(`updateRewardTotalsAndMilestones`).  Events record the milestone value the
orchestrator was looking at. -/
inductive TraceEvent where
  | evalInvoked (commitmentId : String) (m : RewardMilestone)
  | acquireAttempt (commitmentId : String) (m : RewardMilestone) (conf : MarketCapConfirmation)
  | stateWrite (commitmentId : String) (milestones : List RewardMilestone)
      (unlockedLamports totalFundedLamports : ℚ) (status : String)
  deriving DecidableEq, Repr

/-- One entry of the per-commitment / per-milestone `results` array (the
fields the source attaches; the echoed `commitment: publicView(c)` payload
and the `sinceUnix` debugging field are not modelled). -/
structure ResultEntry where
  id : String
  milestoneId : Option String := none
  ok : Bool
  step : Option String := none
  confirmed : Option Bool := none
  idempotent : Option Bool := none
  reason : Option String := none
  error : Option String := none
  unlockLamports : Option ℚ := none
  deriving DecidableEq, Repr

/-- Context fixed for all milestones of one commitment. -/
structure MilestoneCtx where
  commitmentId : String
  tokenMint : String
  chainId : String
  escrowPubkey : String
  canonical : CanonicalPair
  supplyUi : ℚ
  mintAuthority : Option String
  sinceUnix : ℤ
  nowUnix : ℤ
  deriving Repr

/-- State carried through the per-milestone loop. -/
structure MilestoneStepOut where
  milestones : List RewardMilestone
  ledger : List MarketCapConfirmation
  results : List ResultEntry
  trace : List TraceEvent
  changed : Bool
  confirmedInc : ℕ
  deriving DecidableEq, Repr

/-- The effective `requireNoMintAuthority` flag of a milestone (route.ts:372):
`String(raw ?? "true").toLowerCase() !== "false"`. -/
def effectiveRequireNoMintAuthority (m : RewardMilestone) : Bool :=
  jsToLower (match m.requireNoMintAuthority with | some s => s | none => "true") != "false"

/-- The funded total used as the percentage base (route.ts:400-402): current
escrow balance plus the already-released amount, clamped non-negative.
`milestones` is the in-memory list at computation time. -/
def totalFundedOf (env : ChainEnv) (ctx : MilestoneCtx)
    (milestones : List RewardMilestone) : ℚ :=
  max 0 ((env.balanceLamports ctx.escrowPubkey : ℚ) + sumReleasedLamports milestones)

/-- The completion timestamp derived from a hit (route.ts:412): the hit's
fetch time clamped by the chain clock when positive, else the chain clock. -/
def completedAtOf (ctx : MilestoneCtx) (hit : TokenMarketSnapshot) : ℤ :=
  if 0 < hit.fetchedAtUnix then min ctx.nowUnix hit.fetchedAtUnix else ctx.nowUnix

/-- The evidence payload assembled before confirmation (route.ts:416,
projected). -/
def evidenceOf (ctx : MilestoneCtx) (m : RewardMilestone)
    (hit : TokenMarketSnapshot) : MarketCapEvidence :=
  { tokenMint := ctx.tokenMint, chainId := ctx.chainId,
    thresholdUsd := m.marketCapThresholdUsd.val, confirmedAtUnix := ctx.nowUnix,
    hitAtUnix := completedAtOf ctx hit, hitPriceUsd := hit.priceUsd,
    pairAddress := ctx.canonical.pairAddress, dexId := ctx.canonical.dexId,
    minPriceUsd := m.marketCapThresholdUsd.val / ctx.supplyUi,
    sinceUnix := ctx.sinceUnix }

/-- The confirmation record submitted to the ledger acquire (route.ts:452). -/
def confirmationOf (env : ChainEnv) (ctx : MilestoneCtx)
    (milestones : List RewardMilestone) (m : RewardMilestone)
    : MarketCapConfirmation :=
  { commitmentId := ctx.commitmentId, milestoneId := m.id,
    tokenMint := ctx.tokenMint, confirmedAtUnix := ctx.nowUnix,
    totalFundedLamports := totalFundedOf env ctx milestones,
    unlockLamports := computeUnlockLamports m (totalFundedOf env ctx milestones),
    thresholdUsd := m.marketCapThresholdUsd.val,
    chainId := ctx.chainId, pairAddress := ctx.canonical.pairAddress,
    dexId := ctx.canonical.dexId }

/-- The in-memory milestone update applied after a fresh acquisition
(route.ts:478-488). -/
def updatedMilestoneOf (env : ChainEnv) (cfg : RunConfig) (ctx : MilestoneCtx)
    (milestones : List RewardMilestone) (m : RewardMilestone)
    (hit : TokenMarketSnapshot) : RewardMilestone :=
  let completedAtUnix := completedAtOf ctx hit
  let desiredClaimableAtUnix := completedAtUnix + cfg.claimDelaySeconds
  let nextStatus : MilestoneStatus :=
    if desiredClaimableAtUnix ≤ ctx.nowUnix then .claimable else .approved
  { m with
    unlockLamports := .num (computeUnlockLamports m (totalFundedOf env ctx milestones)),
    completedAtUnix := some completedAtUnix,
    approvedAtUnix := some completedAtUnix,
    claimableAtUnix := some desiredClaimableAtUnix,
    becameClaimableAtUnix :=
      if nextStatus = .claimable then
        some (match m.becameClaimableAtUnix with | some t => t | none => ctx.nowUnix)
      else m.becameClaimableAtUnix,
    status := nextStatus,
    autoConfirmedAtUnix := some ctx.nowUnix,
    autoEvidence := some (evidenceOf ctx m hit) }

/-- One iteration of the source's per-milestone loop (route.ts:363-513):
guard cascade, threshold evaluation, unlock computation, ledger acquire, and
the in-memory milestone update on a fresh acquisition. -/
def processOneMilestone (env : ChainEnv) (cfg : RunConfig) (ctx : MilestoneCtx)
    (snaps : List TokenMarketSnapshot) (milestones : List RewardMilestone)
    (ledger : List MarketCapConfirmation) (i : ℕ) : MilestoneStepOut :=
  let noop : MilestoneStepOut :=
    { milestones := milestones, ledger := ledger, results := [], trace := [],
      changed := false, confirmedInc := 0 }
  match milestones[i]? with
  | none => noop
  | some m =>
    if ¬ isMarketCapMilestone m then noop
    else if m.status ≠ .locked then noop
    else if m.completedAtUnix ≠ none then noop
    else if ¬ m.marketCapThresholdUsd.finitePos then noop
    else
      let thresholdUsd := m.marketCapThresholdUsd.val
      if effectiveRequireNoMintAuthority m ∧ ctx.mintAuthority.isSome then
        let entry : ResultEntry :=
          { id := ctx.commitmentId, milestoneId := some m.id, ok := true,
            step := some "evaluate", confirmed := some false,
            reason := some "mint_authority_present" }
        { noop with results := [entry] }
      else if ¬ (0 < ctx.supplyUi) then
        let entry : ResultEntry :=
          { id := ctx.commitmentId, milestoneId := some m.id, ok := false,
            step := some "evaluate", error := some "Invalid token supply" }
        { noop with results := [entry] }
      else
        let minPriceUsd := thresholdUsd / ctx.supplyUi
        let hit? := findFirstTokenMarketSnapshotAbovePrice snaps ctx.tokenMint ctx.chainId
          ctx.canonical.pairAddress ctx.sinceUnix minPriceUsd cfg.minLiquidityUsd
          cfg.minVolumeH1Usd
        match hit? with
        | none =>
          let entry : ResultEntry :=
            { id := ctx.commitmentId, milestoneId := some m.id, ok := true,
              step := some "evaluate", confirmed := some false,
              reason := some "threshold_not_hit" }
          { noop with results := [entry], trace := [.evalInvoked ctx.commitmentId m] }
        | some hit =>
          let unlockLamports := computeUnlockLamports m (totalFundedOf env ctx milestones)
          if ¬ (0 < unlockLamports) then
            let entry : ResultEntry :=
              { id := ctx.commitmentId, milestoneId := some m.id, ok := false,
                step := some "unlock", error := some "Invalid unlock amount" }
            { noop with results := [entry], trace := [.evalInvoked ctx.commitmentId m] }
          else
            let confirmation := confirmationOf env ctx milestones m
            let acq := tryAcquireMarketCapMilestoneConfirmation ledger confirmation
            let trace : List TraceEvent :=
              [.evalInvoked ctx.commitmentId m, .acquireAttempt ctx.commitmentId m confirmation]
            match acq.1 with
            | .dup ex =>
              if ex.tokenMint ≠ ctx.tokenMint ∨ ex.thresholdUsd ≠ thresholdUsd then
                let entry : ResultEntry :=
                  { id := ctx.commitmentId, milestoneId := some m.id, ok := false,
                    step := some "confirm",
                    error := some "Existing confirmation mismatch" }
                { noop with ledger := acq.2, trace := trace, results := [entry] }
              else
                let entry : ResultEntry :=
                  { id := ctx.commitmentId, milestoneId := some m.id, ok := true,
                    step := some "confirm", confirmed := some true,
                    idempotent := some true }
                { noop with ledger := acq.2, trace := trace, results := [entry] }
            | .fresh =>
              let entry : ResultEntry :=
                { id := ctx.commitmentId, milestoneId := some m.id, ok := true,
                  step := some "confirm", confirmed := some true,
                  unlockLamports := some unlockLamports }
              { milestones := milestones.set i (updatedMilestoneOf env cfg ctx milestones m hit),
                ledger := acq.2,
                results := [entry], trace := trace, changed := true, confirmedInc := 1 }

/-- The source's `for (let i = 0; i < milestones.length; i++)` loop, as a
fold over the index list. -/
def msLoop (env : ChainEnv) (cfg : RunConfig) (ctx : MilestoneCtx)
    (snaps : List TokenMarketSnapshot) :
    List ℕ → MilestoneStepOut → MilestoneStepOut
  | [], st => st
  | i :: rest, st =>
    let out := processOneMilestone env cfg ctx snaps st.milestones st.ledger i
    msLoop env cfg ctx snaps rest
      { milestones := out.milestones, ledger := out.ledger,
        results := st.results ++ out.results, trace := st.trace ++ out.trace,
        changed := st.changed || out.changed,
        confirmedInc := st.confirmedInc + out.confirmedInc }

/-- The milestone-qualification predicate of the eligible-commitment filter
(route.ts:316): market-cap kind, still locked, and no completion
timestamp. -/
def milestoneQualifies (m : RewardMilestone) : Bool :=
  isMarketCapMilestone m && m.status == .locked && m.completedAtUnix == none

/-- The eligible-commitment filter (route.ts:311-317). -/
def commitmentEligible (commitmentIdFilter : String) (c : Commitment) : Bool :=
  c.kind == "creator_reward" && c.tokenMint != "" &&
  (commitmentIdFilter == "" || c.id == commitmentIdFilter) &&
  c.milestones.any milestoneQualifies

/-- Aggregated state of a run. -/
structure RunState where
  store : EscrowStore
  results : List ResultEntry
  trace : List TraceEvent
  confirmedCount : ℕ
  deriving DecidableEq, Repr

/-- The body of the per-commitment loop (route.ts:324-534): ingest, canonical
lookup, fresh chain reads, the milestone loop, and — when anything changed —
the single `updateRewardTotalsAndMilestones` write (modelled from the spec's
persistence interface as replacing the commitment's milestones, totals and
status by id). -/
def processCommitment (env : ChainEnv) (cfg : RunConfig) (st : RunState)
    (c : Commitment) : RunState :=
  let chainId := "solana"
  let tokenMint := jsTrim c.tokenMint
  if tokenMint = "" then st
  else
    let ing := ingestLatestSnapshot (env.feedPairs tokenMint) st.store tokenMint chainId
      cfg.minLiquidityUsd env.nowUnix
    match ing.1 with
    | .fail e =>
      let entry : ResultEntry :=
        { id := c.id, ok := false, step := some "ingest", error := some e }
      { st with store := ing.2, results := st.results ++ [entry] }
    | .ok _ _ =>
      let store1 := ing.2
      match getCanonicalPair store1.canonicalPairs tokenMint chainId with
      | none =>
        let entry : ResultEntry :=
          { id := c.id, ok := false, step := some "canonical",
            error := some "Canonical pair missing" }
        { st with store := store1, results := st.results ++ [entry] }
      | some canonical =>
        match env.mintInfo tokenMint with
        | none =>
          let entry : ResultEntry :=
            { id := c.id, ok := false, step := some "mint",
              error := some "Mint not found" }
          { st with store := store1, results := st.results ++ [entry] }
        | some info =>
          let supplyUi := supplyUiAmount info.1 info.2
          let sinceUnix := max 1 (env.nowUnix - cfg.lookbackSeconds)
          let ctx : MilestoneCtx :=
            { commitmentId := c.id, tokenMint := tokenMint, chainId := chainId,
              escrowPubkey := c.escrowPubkey, canonical := canonical,
              supplyUi := supplyUi, mintAuthority := env.mintAuthority tokenMint,
              sinceUnix := sinceUnix, nowUnix := env.nowUnix }
          let out := msLoop env cfg ctx store1.snapshots
            (List.range c.milestones.length)
            { milestones := c.milestones, ledger := store1.confirmations,
              results := [], trace := [], changed := false, confirmedInc := 0 }
          let store2 := { store1 with confirmations := out.ledger }
          if out.changed then
            let unlockedLamports := computeUnlockedLamports out.milestones
            let releasedLamports := sumReleasedLamports out.milestones
            let balanceAfter := env.balanceLamports c.escrowPubkey
            let totalFundedLamports := max 0 ((balanceAfter : ℚ) + releasedLamports)
            let newStatus := if c.status == "created" then "active" else c.status
            let replaceOne : Commitment → Commitment := fun x =>
              if x.id == c.id then
                { x with
                  milestones := out.milestones,
                  unlockedLamports := unlockedLamports,
                  totalFundedLamports := totalFundedLamports,
                  status := newStatus }
              else x
            let store3 := { store2 with commitments := store2.commitments.map replaceOne }
            { store := store3,
              results := st.results ++ out.results ++ [{ id := c.id, ok := true }],
              trace := st.trace ++ out.trace ++
                [.stateWrite c.id out.milestones unlockedLamports totalFundedLamports newStatus],
              confirmedCount := st.confirmedCount + out.confirmedInc }
          else
            { store := store2,
              results := st.results ++ out.results ++ [{ id := c.id, ok := true }],
              trace := st.trace ++ out.trace,
              confirmedCount := st.confirmedCount + out.confirmedInc }

/-- One invocation of the market-cap resolver `POST` orchestrator
(route.ts:266-544), after the auth / rate-limit / feature-flag wrappers:
filter eligible commitments, cap the batch, and process each in order.  The
request body contributes an optional commitment-id filter (empty string for
none) and an optional batch limit. -/
def runOrchestrator (env : ChainEnv) (cfg : RunConfig) (commitmentIdFilter : String)
    (limit : Option JsNum) (store : EscrowStore) : RunState :=
  let targets := store.commitments.filter (commitmentEligible commitmentIdFilter)
  let capped :=
    match limit with
    | some l => if l.finitePos then targets.take (min 200 ⌊l.val⌋).toNat else targets
    | none => targets
  capped.foldl (processCommitment env cfg)
    { store := store, results := [], trace := [], confirmedCount := 0 }

/-! ### Digit-list arithmetic for `supplyUiAmount` -/

theorem ofDigitsBE_foldl (l : List ℕ) : ∀ acc : ℕ,
    l.foldl (fun a d => 10 * a + d) acc = acc * 10 ^ l.length + ofDigitsBE l := by
  induction l with
  | nil => intro acc; simp [ofDigitsBE]
  | cons d tl ih =>
    intro acc
    have h1 : ofDigitsBE (d :: tl) = d * 10 ^ tl.length + ofDigitsBE tl := by
      have := ih d
      simpa [ofDigitsBE] using this
    have h2 : (d :: tl).foldl (fun a d => 10 * a + d) acc
        = tl.foldl (fun a d => 10 * a + d) (10 * acc + d) := by
      simp
    rw [h2, ih (10 * acc + d), h1]
    simp [List.length_cons, pow_succ]
    ring

theorem ofDigitsBE_append (a b : List ℕ) :
    ofDigitsBE (a ++ b) = ofDigitsBE a * 10 ^ b.length + ofDigitsBE b := by
  unfold ofDigitsBE
  rw [List.foldl_append]
  exact ofDigitsBE_foldl b _

theorem ofDigitsBE_replicate_zero (k : ℕ) : ofDigitsBE (List.replicate k 0) = 0 := by
  induction k with
  | zero => simp [ofDigitsBE]
  | succ n ih =>
    have : List.replicate (n + 1) 0 = 0 :: List.replicate n 0 := rfl
    simp only [this, ofDigitsBE, List.foldl_cons] at *
    simpa using ih

theorem ofDigitsBE_pad (k : ℕ) (l : List ℕ) :
    ofDigitsBE (List.replicate k 0 ++ l) = ofDigitsBE l := by
  rw [ofDigitsBE_append, ofDigitsBE_replicate_zero]
  simp

theorem ofDigitsBE_reverse (l : List ℕ) :
    ofDigitsBE l.reverse = Nat.ofDigits 10 l := by
  induction l with
  | nil => simp [ofDigitsBE, Nat.ofDigits]
  | cons d tl ih =>
    have h1 : (d :: tl).reverse = tl.reverse ++ [d] := by simp
    rw [h1, ofDigitsBE_append, ih, Nat.ofDigits_cons]
    simp [ofDigitsBE]
    ring

theorem ofDigitsBE_digitsBE (n : ℕ) : ofDigitsBE (digitsBE n) = n := by
  unfold digitsBE
  by_cases h : n = 0
  · simp [h, ofDigitsBE]
  · rw [if_neg h, ofDigitsBE_reverse, Nat.ofDigits_digits]

theorem digitsBE_mem_lt (n : ℕ) : ∀ d ∈ digitsBE n, d < 10 := by
  intro d hd
  unfold digitsBE at hd
  by_cases h : n = 0
  · simp [h] at hd; omega
  · rw [if_neg h, List.mem_reverse] at hd
    exact Nat.digits_lt_base (by norm_num) hd

theorem ofDigitsBE_foldl_lt (l : List ℕ) (hl : ∀ d ∈ l, d < 10) : ∀ acc : ℕ,
    l.foldl (fun a d => 10 * a + d) acc < (acc + 1) * 10 ^ l.length := by
  induction l with
  | nil => intro acc; simp
  | cons d tl ih =>
    intro acc
    have hd : d < 10 := hl d (by simp)
    have htl : ∀ x ∈ tl, x < 10 := fun x hx => hl x (by simp [hx])
    have h2 : (d :: tl).foldl (fun a d => 10 * a + d) acc
        = tl.foldl (fun a d => 10 * a + d) (10 * acc + d) := by simp
    rw [h2]
    calc tl.foldl (fun a d => 10 * a + d) (10 * acc + d)
        < (10 * acc + d + 1) * 10 ^ tl.length := ih htl _
      _ ≤ (acc + 1) * 10 ^ (d :: tl).length := by
          simp only [List.length_cons, pow_succ]
          nlinarith [pow_pos (show 0 < 10 by norm_num) tl.length]

theorem ofDigitsBE_lt (l : List ℕ) (hl : ∀ d ∈ l, d < 10) :
    ofDigitsBE l < 10 ^ l.length := by
  have := ofDigitsBE_foldl_lt l hl 0
  simpa [ofDigitsBE] using this

theorem digitsBE_length_le (n d : ℕ) (hd : 1 ≤ d) (h : n < 10 ^ d) :
    (digitsBE n).length ≤ d := by
  unfold digitsBE
  by_cases hn : n = 0
  · simp [hn]; omega
  · rw [if_neg hn, List.length_reverse, Nat.digits_len 10 n (by norm_num) hn]
    have := (Nat.lt_pow_iff_log_lt (b := 10) (by norm_num) hn).mp h
    omega

/-- C9: the circulating-supply display amount is computed by integer
arithmetic — integer quotient and remainder by `10^decimals`, with the
fractional remainder truncated (not rounded) to the code's fixed 9 digits —
so the digit-string slicing in the source equals the arithmetic
specification. -/
theorem supplyUiAmount_integer_arithmetic (supplyRaw : ℕ) (decimals : ℤ) :
    supplyUiAmount supplyRaw decimals = supplyUiAmountSpec supplyRaw decimals := by
  simp only [supplyUiAmount, supplyUiAmountSpec]
  set d : ℕ := (min 18 (max 0 decimals)).toNat with hdd
  by_cases hd0 : d = 0
  · rw [hd0]
    simp [digitsBE, listPadStart, ofDigitsBE, Nat.mod_one]
  · have hd1 : 1 ≤ d := Nat.one_le_iff_ne_zero.mpr hd0
    have hpow : 0 < (10 : ℕ) ^ d := pow_pos (by norm_num) d
    have hfrac : supplyRaw % 10 ^ d < 10 ^ d := Nat.mod_lt _ hpow
    set frac := supplyRaw % 10 ^ d with hfracdef
    have hlen : (digitsBE frac).length ≤ d := digitsBE_length_le _ _ hd1 hfrac
    have hpadlen : (listPadStart d (digitsBE frac)).length = d := by
      unfold listPadStart
      simp only [List.length_append, List.length_replicate]
      omega
    have hpadval : ofDigitsBE (listPadStart d (digitsBE frac)) = frac := by
      unfold listPadStart
      rw [ofDigitsBE_pad, ofDigitsBE_digitsBE]
    have hpaddig : ∀ x ∈ listPadStart d (digitsBE frac), x < 10 := by
      unfold listPadStart
      intro x hx
      rcases List.mem_append.mp hx with h | h
      · have := List.eq_of_mem_replicate h
        omega
      · exact digitsBE_mem_lt frac x h
    by_cases h9 : d ≤ 9
    · have htake : (listPadStart d (digitsBE frac)).take 9 = listPadStart d (digitsBE frac) :=
        List.take_of_length_le (by omega)
      rw [htake, hpadval, hpadlen]
      have hkeep : min d 9 = d := min_eq_left h9
      rw [hkeep, Nat.sub_self, pow_zero, Nat.div_one]
      simp [hd0]
    · have h9' : 9 < d := by omega
      set padded := listPadStart d (digitsBE frac) with hpaddef
      have htlen : (padded.take 9).length = 9 := by
        rw [List.length_take, hpadlen]
        omega
      have hdlen : (padded.drop 9).length = d - 9 := by
        rw [List.length_drop, hpadlen]
      have hval : ofDigitsBE padded
          = ofDigitsBE (padded.take 9) * 10 ^ (d - 9) + ofDigitsBE (padded.drop 9) := by
        conv_lhs => rw [← List.take_append_drop 9 padded]
        rw [ofDigitsBE_append, hdlen]
      have hdroplt : ofDigitsBE (padded.drop 9) < 10 ^ (d - 9) := by
        have := ofDigitsBE_lt (padded.drop 9)
          (fun x hx => hpaddig x (List.mem_of_mem_drop hx))
        rwa [hdlen] at this
      have htakeval : ofDigitsBE (padded.take 9) = frac / 10 ^ (d - 9) := by
        have hp : 0 < (10 : ℕ) ^ (d - 9) := pow_pos (by norm_num) _
        rw [← hpadval, hval, mul_comm, Nat.mul_add_div hp, Nat.div_eq_of_lt hdroplt]
        simp
      rw [htakeval, htlen]
      have hkeep : min d 9 = 9 := min_eq_right (by omega)
      rw [hkeep]
      norm_num

/-! ### Branch characterizations of the per-milestone step -/

theorem mem_of_getElem_some {α : Type} {l : List α} {i : ℕ} {a : α}
    (h : l[i]? = some a) : a ∈ l := by
  obtain ⟨hi, he⟩ := List.getElem?_eq_some.mp h
  exact he ▸ List.getElem_mem hi

/-- Abbreviation for the no-effect output of one milestone iteration. -/
def stepNoop (milestones : List RewardMilestone)
    (ledger : List MarketCapConfirmation) : MilestoneStepOut :=
  { milestones := milestones, ledger := ledger, results := [], trace := [],
    changed := false, confirmedInc := 0 }

theorem step_outOfRange (env : ChainEnv) (cfg : RunConfig) (ctx : MilestoneCtx)
    (snaps : List TokenMarketSnapshot) (ms : List RewardMilestone)
    (ledger : List MarketCapConfirmation) (i : ℕ)
    (hmi : ms[i]? = none) :
    processOneMilestone env cfg ctx snaps ms ledger i = stepNoop ms ledger := by
  unfold processOneMilestone stepNoop
  rw [hmi]

theorem step_notMarketCap (env : ChainEnv) (cfg : RunConfig) (ctx : MilestoneCtx)
    (snaps : List TokenMarketSnapshot) (ms : List RewardMilestone)
    (ledger : List MarketCapConfirmation) (i : ℕ) (m : RewardMilestone)
    (hmi : ms[i]? = some m) (h : ¬ isMarketCapMilestone m = true) :
    processOneMilestone env cfg ctx snaps ms ledger i = stepNoop ms ledger := by
  unfold processOneMilestone stepNoop
  rw [hmi]
  simp [h]

theorem step_notLocked (env : ChainEnv) (cfg : RunConfig) (ctx : MilestoneCtx)
    (snaps : List TokenMarketSnapshot) (ms : List RewardMilestone)
    (ledger : List MarketCapConfirmation) (i : ℕ) (m : RewardMilestone)
    (hmi : ms[i]? = some m) (h : ¬ m.status = MilestoneStatus.locked) :
    processOneMilestone env cfg ctx snaps ms ledger i = stepNoop ms ledger := by
  unfold processOneMilestone stepNoop
  rw [hmi]
  simp [h]

theorem step_completed (env : ChainEnv) (cfg : RunConfig) (ctx : MilestoneCtx)
    (snaps : List TokenMarketSnapshot) (ms : List RewardMilestone)
    (ledger : List MarketCapConfirmation) (i : ℕ) (m : RewardMilestone)
    (hmi : ms[i]? = some m) (h : ¬ m.completedAtUnix = none) :
    processOneMilestone env cfg ctx snaps ms ledger i = stepNoop ms ledger := by
  unfold processOneMilestone stepNoop
  rw [hmi]
  simp [h]

theorem step_badThreshold (env : ChainEnv) (cfg : RunConfig) (ctx : MilestoneCtx)
    (snaps : List TokenMarketSnapshot) (ms : List RewardMilestone)
    (ledger : List MarketCapConfirmation) (i : ℕ) (m : RewardMilestone)
    (hmi : ms[i]? = some m) (h : ¬ m.marketCapThresholdUsd.finitePos = true) :
    processOneMilestone env cfg ctx snaps ms ledger i = stepNoop ms ledger := by
  unfold processOneMilestone stepNoop
  rw [hmi]
  simp [h]

theorem step_mintAuthority (env : ChainEnv) (cfg : RunConfig) (ctx : MilestoneCtx)
    (snaps : List TokenMarketSnapshot) (ms : List RewardMilestone)
    (ledger : List MarketCapConfirmation) (i : ℕ) (m : RewardMilestone)
    (hmi : ms[i]? = some m)
    (h1 : isMarketCapMilestone m = true)
    (h2 : m.status = MilestoneStatus.locked)
    (h3 : m.completedAtUnix = none)
    (h4 : m.marketCapThresholdUsd.finitePos = true)
    (h5 : effectiveRequireNoMintAuthority m = true)
    (h6 : ctx.mintAuthority.isSome = true) :
    processOneMilestone env cfg ctx snaps ms ledger i =
      { stepNoop ms ledger with
        results := [{
          id := ctx.commitmentId,
          milestoneId := some m.id,
          ok := true,
          step := some "evaluate",
          confirmed := some false,
          reason := some "mint_authority_present" }] } := by
  unfold processOneMilestone stepNoop
  rw [hmi]
  simp [h1, h2, h3, h4, h5, h6]

theorem step_badSupply (env : ChainEnv) (cfg : RunConfig) (ctx : MilestoneCtx)
    (snaps : List TokenMarketSnapshot) (ms : List RewardMilestone)
    (ledger : List MarketCapConfirmation) (i : ℕ) (m : RewardMilestone)
    (hmi : ms[i]? = some m)
    (h1 : isMarketCapMilestone m = true)
    (h2 : m.status = MilestoneStatus.locked)
    (h3 : m.completedAtUnix = none)
    (h4 : m.marketCapThresholdUsd.finitePos = true)
    (h5 : ¬ (effectiveRequireNoMintAuthority m = true ∧ ctx.mintAuthority.isSome = true))
    (h6 : ¬ (0 < ctx.supplyUi)) :
    processOneMilestone env cfg ctx snaps ms ledger i =
      { stepNoop ms ledger with
        results := [{
          id := ctx.commitmentId,
          milestoneId := some m.id,
          ok := false,
          step := some "evaluate",
          error := some "Invalid token supply" }] } := by
  unfold processOneMilestone stepNoop
  rw [hmi]
  simp [h1, h2, h3, h4, h6]
  intro ha
  rcases hma : ctx.mintAuthority with _ | a
  · rfl
  · exact absurd ⟨ha, by simp [hma]⟩ h5

theorem step_noHit (env : ChainEnv) (cfg : RunConfig) (ctx : MilestoneCtx)
    (snaps : List TokenMarketSnapshot) (ms : List RewardMilestone)
    (ledger : List MarketCapConfirmation) (i : ℕ) (m : RewardMilestone)
    (hmi : ms[i]? = some m)
    (h1 : isMarketCapMilestone m = true)
    (h2 : m.status = MilestoneStatus.locked)
    (h3 : m.completedAtUnix = none)
    (h4 : m.marketCapThresholdUsd.finitePos = true)
    (h5 : ¬ (effectiveRequireNoMintAuthority m = true ∧ ctx.mintAuthority.isSome = true))
    (h6 : 0 < ctx.supplyUi)
    (h7 : findFirstTokenMarketSnapshotAbovePrice snaps ctx.tokenMint ctx.chainId
        ctx.canonical.pairAddress ctx.sinceUnix (m.marketCapThresholdUsd.val / ctx.supplyUi)
        cfg.minLiquidityUsd cfg.minVolumeH1Usd = none) :
    processOneMilestone env cfg ctx snaps ms ledger i =
      { stepNoop ms ledger with
        results := [{
          id := ctx.commitmentId,
          milestoneId := some m.id,
          ok := true,
          step := some "evaluate",
          confirmed := some false,
          reason := some "threshold_not_hit" }],
        trace := [.evalInvoked ctx.commitmentId m] } := by
  unfold processOneMilestone stepNoop
  rw [hmi]
  simp [h1, h2, h3, h4, h5, h6, h7]

theorem step_badUnlock (env : ChainEnv) (cfg : RunConfig) (ctx : MilestoneCtx)
    (snaps : List TokenMarketSnapshot) (ms : List RewardMilestone)
    (ledger : List MarketCapConfirmation) (i : ℕ) (m : RewardMilestone)
    (hit : TokenMarketSnapshot)
    (hmi : ms[i]? = some m)
    (h1 : isMarketCapMilestone m = true)
    (h2 : m.status = MilestoneStatus.locked)
    (h3 : m.completedAtUnix = none)
    (h4 : m.marketCapThresholdUsd.finitePos = true)
    (h5 : ¬ (effectiveRequireNoMintAuthority m = true ∧ ctx.mintAuthority.isSome = true))
    (h6 : 0 < ctx.supplyUi)
    (h7 : findFirstTokenMarketSnapshotAbovePrice snaps ctx.tokenMint ctx.chainId
        ctx.canonical.pairAddress ctx.sinceUnix (m.marketCapThresholdUsd.val / ctx.supplyUi)
        cfg.minLiquidityUsd cfg.minVolumeH1Usd = some hit)
    (h8 : ¬ (0 < computeUnlockLamports m (totalFundedOf env ctx ms))) :
    processOneMilestone env cfg ctx snaps ms ledger i =
      { stepNoop ms ledger with
        results := [{
          id := ctx.commitmentId,
          milestoneId := some m.id,
          ok := false,
          step := some "unlock",
          error := some "Invalid unlock amount" }],
        trace := [.evalInvoked ctx.commitmentId m] } := by
  unfold processOneMilestone stepNoop
  rw [hmi]
  simp [h1, h2, h3, h4, h5, h6, h7, h8]

theorem step_mismatch (env : ChainEnv) (cfg : RunConfig) (ctx : MilestoneCtx)
    (snaps : List TokenMarketSnapshot) (ms : List RewardMilestone)
    (ledger : List MarketCapConfirmation) (i : ℕ) (m : RewardMilestone)
    (hit : TokenMarketSnapshot) (ex : MarketCapConfirmation)
    (hmi : ms[i]? = some m)
    (h1 : isMarketCapMilestone m = true)
    (h2 : m.status = MilestoneStatus.locked)
    (h3 : m.completedAtUnix = none)
    (h4 : m.marketCapThresholdUsd.finitePos = true)
    (h5 : ¬ (effectiveRequireNoMintAuthority m = true ∧ ctx.mintAuthority.isSome = true))
    (h6 : 0 < ctx.supplyUi)
    (h7 : findFirstTokenMarketSnapshotAbovePrice snaps ctx.tokenMint ctx.chainId
        ctx.canonical.pairAddress ctx.sinceUnix (m.marketCapThresholdUsd.val / ctx.supplyUi)
        cfg.minLiquidityUsd cfg.minVolumeH1Usd = some hit)
    (h8 : 0 < computeUnlockLamports m (totalFundedOf env ctx ms))
    (h9 : ledger.find? (fun e =>
        e.commitmentId == ctx.commitmentId && e.milestoneId == m.id) = some ex)
    (h10 : ex.tokenMint ≠ ctx.tokenMint ∨ ex.thresholdUsd ≠ m.marketCapThresholdUsd.val) :
    processOneMilestone env cfg ctx snaps ms ledger i =
      { stepNoop ms ledger with
        results := [{
          id := ctx.commitmentId,
          milestoneId := some m.id,
          ok := false,
          step := some "confirm",
          error := some "Existing confirmation mismatch" }],
        trace := [.evalInvoked ctx.commitmentId m,
          .acquireAttempt ctx.commitmentId m (confirmationOf env ctx ms m)] } := by
  unfold processOneMilestone stepNoop
  rw [hmi]
  simp only [tryAcquireMarketCapMilestoneConfirmation, confirmationOf]
  simp [h1, h2, h3, h4, h5, h6, h7, h8, h9, confirmationOf]
  intro htok hthr
  rcases h10 with h | h
  · exact absurd htok h
  · exact absurd hthr h

theorem step_idempotent (env : ChainEnv) (cfg : RunConfig) (ctx : MilestoneCtx)
    (snaps : List TokenMarketSnapshot) (ms : List RewardMilestone)
    (ledger : List MarketCapConfirmation) (i : ℕ) (m : RewardMilestone)
    (hit : TokenMarketSnapshot) (ex : MarketCapConfirmation)
    (hmi : ms[i]? = some m)
    (h1 : isMarketCapMilestone m = true)
    (h2 : m.status = MilestoneStatus.locked)
    (h3 : m.completedAtUnix = none)
    (h4 : m.marketCapThresholdUsd.finitePos = true)
    (h5 : ¬ (effectiveRequireNoMintAuthority m = true ∧ ctx.mintAuthority.isSome = true))
    (h6 : 0 < ctx.supplyUi)
    (h7 : findFirstTokenMarketSnapshotAbovePrice snaps ctx.tokenMint ctx.chainId
        ctx.canonical.pairAddress ctx.sinceUnix (m.marketCapThresholdUsd.val / ctx.supplyUi)
        cfg.minLiquidityUsd cfg.minVolumeH1Usd = some hit)
    (h8 : 0 < computeUnlockLamports m (totalFundedOf env ctx ms))
    (h9 : ledger.find? (fun e =>
        e.commitmentId == ctx.commitmentId && e.milestoneId == m.id) = some ex)
    (h10 : ex.tokenMint = ctx.tokenMint ∧ ex.thresholdUsd = m.marketCapThresholdUsd.val) :
    processOneMilestone env cfg ctx snaps ms ledger i =
      { stepNoop ms ledger with
        results := [{
          id := ctx.commitmentId,
          milestoneId := some m.id,
          ok := true,
          step := some "confirm",
          confirmed := some true,
          idempotent := some true }],
        trace := [.evalInvoked ctx.commitmentId m,
          .acquireAttempt ctx.commitmentId m (confirmationOf env ctx ms m)] } := by
  unfold processOneMilestone stepNoop
  rw [hmi]
  simp only [tryAcquireMarketCapMilestoneConfirmation, confirmationOf]
  simp [h1, h2, h3, h4, h5, h6, h7, h8, h9, confirmationOf, h10.1, h10.2]

theorem step_fresh (env : ChainEnv) (cfg : RunConfig) (ctx : MilestoneCtx)
    (snaps : List TokenMarketSnapshot) (ms : List RewardMilestone)
    (ledger : List MarketCapConfirmation) (i : ℕ) (m : RewardMilestone)
    (hit : TokenMarketSnapshot)
    (hmi : ms[i]? = some m)
    (h1 : isMarketCapMilestone m = true)
    (h2 : m.status = MilestoneStatus.locked)
    (h3 : m.completedAtUnix = none)
    (h4 : m.marketCapThresholdUsd.finitePos = true)
    (h5 : ¬ (effectiveRequireNoMintAuthority m = true ∧ ctx.mintAuthority.isSome = true))
    (h6 : 0 < ctx.supplyUi)
    (h7 : findFirstTokenMarketSnapshotAbovePrice snaps ctx.tokenMint ctx.chainId
        ctx.canonical.pairAddress ctx.sinceUnix (m.marketCapThresholdUsd.val / ctx.supplyUi)
        cfg.minLiquidityUsd cfg.minVolumeH1Usd = some hit)
    (h8 : 0 < computeUnlockLamports m (totalFundedOf env ctx ms))
    (h9 : ledger.find? (fun e =>
        e.commitmentId == ctx.commitmentId && e.milestoneId == m.id) = none) :
    processOneMilestone env cfg ctx snaps ms ledger i =
      { milestones := ms.set i (updatedMilestoneOf env cfg ctx ms m hit),
        ledger := ledger ++ [confirmationOf env ctx ms m],
        results := [{
          id := ctx.commitmentId,
          milestoneId := some m.id,
          ok := true,
          step := some "confirm",
          confirmed := some true,
          unlockLamports := some (computeUnlockLamports m (totalFundedOf env ctx ms)) }],
        trace := [.evalInvoked ctx.commitmentId m,
          .acquireAttempt ctx.commitmentId m (confirmationOf env ctx ms m)],
        changed := true,
        confirmedInc := 1 } := by
  unfold processOneMilestone
  rw [hmi]
  simp only [tryAcquireMarketCapMilestoneConfirmation, confirmationOf]
  simp [h1, h2, h3, h4, h5, h6, h7, h8, h9, confirmationOf]

/-! ### Invariants of one milestone iteration -/

/-- Master invariant of one per-milestone iteration: milestone entries are
preserved except for a confirmed update (which stamps `completedAtUnix`); the
ledger only grows, by confirmations for currently locked, uncompleted
milestones; every result entry names the processed commitment and a locked,
uncompleted market-cap milestone; every evaluator invocation and acquire
attempt concerns a locked milestone with no completion timestamp; a fresh
confirmed result implies the changed flag; and an unchanged step leaves the
milestone list untouched. -/

theorem processOneMilestone_master (env : ChainEnv) (cfg : RunConfig) (ctx : MilestoneCtx)
    (snaps : List TokenMarketSnapshot) (ms : List RewardMilestone)
    (ledger : List MarketCapConfirmation) (i : ℕ) :
    (∀ x ∈ (processOneMilestone env cfg ctx snaps ms ledger i).milestones,
        x ∈ ms ∨ (x.completedAtUnix ≠ none ∧
          ∃ y ∈ ms, y.id = x.id ∧ y.status = .locked ∧ y.completedAtUnix = none)) ∧
    (∃ extra, (processOneMilestone env cfg ctx snaps ms ledger i).ledger = ledger ++ extra ∧
        ∀ e ∈ extra, e.commitmentId = ctx.commitmentId ∧
          ∃ m ∈ ms, e.milestoneId = m.id ∧ m.status = .locked ∧ m.completedAtUnix = none) ∧
    (∀ r ∈ (processOneMilestone env cfg ctx snaps ms ledger i).results,
        r.id = ctx.commitmentId ∧ ∃ m ∈ ms, r.milestoneId = some m.id ∧
          isMarketCapMilestone m = true ∧ m.status = .locked ∧ m.completedAtUnix = none) ∧
    (∀ ev ∈ (processOneMilestone env cfg ctx snaps ms ledger i).trace,
      (∀ cid m0, ev = .evalInvoked cid m0 →
          cid = ctx.commitmentId ∧ m0 ∈ ms ∧ m0.status = .locked ∧ m0.completedAtUnix = none) ∧
      (∀ cid m0 conf, ev = .acquireAttempt cid m0 conf →
          cid = ctx.commitmentId ∧ m0 ∈ ms ∧ m0.status = .locked ∧ m0.completedAtUnix = none ∧
          conf = confirmationOf env ctx ms m0) ∧
      (∀ cid ms' u tf stt, ev = .stateWrite cid ms' u tf stt → False)) ∧
    (∀ r ∈ (processOneMilestone env cfg ctx snaps ms ledger i).results,
        r.confirmed = some true → r.idempotent = none →
        (processOneMilestone env cfg ctx snaps ms ledger i).changed = true) ∧
    ((processOneMilestone env cfg ctx snaps ms ledger i).changed = false →
        (processOneMilestone env cfg ctx snaps ms ledger i).milestones = ms) := by
  rcases hmi : ms[i]? with _ | m
  · rw [step_outOfRange env cfg ctx snaps ms ledger i hmi]
    exact ⟨fun x hx => Or.inl hx, ⟨[], by simp [stepNoop], by simp⟩,
      by simp [stepNoop], by simp [stepNoop], by simp [stepNoop], fun _ => rfl⟩
  · have hmem : m ∈ ms := mem_of_getElem_some hmi
    by_cases g1 : isMarketCapMilestone m = true
    case neg =>
      rw [step_notMarketCap env cfg ctx snaps ms ledger i m hmi g1]
      exact ⟨fun x hx => Or.inl hx, ⟨[], by simp [stepNoop], by simp⟩,
        by simp [stepNoop], by simp [stepNoop], by simp [stepNoop], fun _ => rfl⟩
    case pos =>
    by_cases g2 : m.status = MilestoneStatus.locked
    case neg =>
      rw [step_notLocked env cfg ctx snaps ms ledger i m hmi g2]
      exact ⟨fun x hx => Or.inl hx, ⟨[], by simp [stepNoop], by simp⟩,
        by simp [stepNoop], by simp [stepNoop], by simp [stepNoop], fun _ => rfl⟩
    case pos =>
    by_cases g3 : m.completedAtUnix = none
    case neg =>
      rw [step_completed env cfg ctx snaps ms ledger i m hmi g3]
      exact ⟨fun x hx => Or.inl hx, ⟨[], by simp [stepNoop], by simp⟩,
        by simp [stepNoop], by simp [stepNoop], by simp [stepNoop], fun _ => rfl⟩
    case pos =>
    by_cases g4 : m.marketCapThresholdUsd.finitePos = true
    case neg =>
      rw [step_badThreshold env cfg ctx snaps ms ledger i m hmi g4]
      exact ⟨fun x hx => Or.inl hx, ⟨[], by simp [stepNoop], by simp⟩,
        by simp [stepNoop], by simp [stepNoop], by simp [stepNoop], fun _ => rfl⟩
    case pos =>
    by_cases g5 : effectiveRequireNoMintAuthority m = true ∧ ctx.mintAuthority.isSome = true
    case pos =>
      rw [step_mintAuthority env cfg ctx snaps ms ledger i m hmi g1 g2 g3 g4 g5.1 g5.2]
      refine ⟨fun x hx => Or.inl hx, ⟨[], by simp [stepNoop], by simp⟩, ?_,
        by simp [stepNoop], by simp [stepNoop], fun _ => rfl⟩
      intro r hr
      simp only [stepNoop, List.mem_singleton] at hr
      subst hr
      exact ⟨rfl, m, hmem, rfl, g1, g2, g3⟩
    case neg =>
    by_cases g6 : 0 < ctx.supplyUi
    case neg =>
      rw [step_badSupply env cfg ctx snaps ms ledger i m hmi g1 g2 g3 g4 g5 g6]
      refine ⟨fun x hx => Or.inl hx, ⟨[], by simp [stepNoop], by simp⟩, ?_,
        by simp [stepNoop], by simp [stepNoop], fun _ => rfl⟩
      intro r hr
      simp only [stepNoop, List.mem_singleton] at hr
      subst hr
      exact ⟨rfl, m, hmem, rfl, g1, g2, g3⟩
    case pos =>
    rcases g7 : findFirstTokenMarketSnapshotAbovePrice snaps ctx.tokenMint ctx.chainId
        ctx.canonical.pairAddress ctx.sinceUnix (m.marketCapThresholdUsd.val / ctx.supplyUi)
        cfg.minLiquidityUsd cfg.minVolumeH1Usd with _ | hit
    · rw [step_noHit env cfg ctx snaps ms ledger i m hmi g1 g2 g3 g4 g5 g6 g7]
      refine ⟨fun x hx => Or.inl hx, ⟨[], by simp [stepNoop], by simp⟩, ?_, ?_,
        by simp [stepNoop], fun _ => rfl⟩
      · intro r hr
        simp only [stepNoop, List.mem_singleton] at hr
        subst hr
        exact ⟨rfl, m, hmem, rfl, g1, g2, g3⟩
      · intro ev hev
        simp only [stepNoop, List.mem_singleton] at hev
        subst hev
        refine ⟨?_, ?_, ?_⟩
        · intro cid m0 he
          cases he
          exact ⟨rfl, hmem, g2, g3⟩
        · intro cid m0 conf he
          cases he
        · intro cid ms' u tf stt he
          cases he
    · by_cases g8 : 0 < computeUnlockLamports m (totalFundedOf env ctx ms)
      case neg =>
        rw [step_badUnlock env cfg ctx snaps ms ledger i m hit hmi g1 g2 g3 g4 g5 g6 g7 g8]
        refine ⟨fun x hx => Or.inl hx, ⟨[], by simp [stepNoop], by simp⟩, ?_, ?_,
          by simp [stepNoop], fun _ => rfl⟩
        · intro r hr
          simp only [stepNoop, List.mem_singleton] at hr
          subst hr
          exact ⟨rfl, m, hmem, rfl, g1, g2, g3⟩
        · intro ev hev
          simp only [stepNoop, List.mem_singleton] at hev
          subst hev
          refine ⟨?_, ?_, ?_⟩
          · intro cid m0 he
            cases he
            exact ⟨rfl, hmem, g2, g3⟩
          · intro cid m0 conf he
            cases he
          · intro cid ms' u tf stt he
            cases he
      case pos =>
      rcases g9 : ledger.find? (fun e =>
          e.commitmentId == ctx.commitmentId && e.milestoneId == m.id) with _ | ex
      · rw [step_fresh env cfg ctx snaps ms ledger i m hit hmi g1 g2 g3 g4 g5 g6 g7 g8 g9]
        refine ⟨?_, ⟨[confirmationOf env ctx ms m], rfl, ?_⟩, ?_, ?_, ?_, ?_⟩
        · intro x hx
          simp only at hx
          rcases List.mem_or_eq_of_mem_set hx with h | h
          · exact Or.inl h
          · subst h
            refine Or.inr ⟨by simp [updatedMilestoneOf], m, hmem, by simp [updatedMilestoneOf], g2, g3⟩
        · intro e he
          simp only [List.mem_singleton] at he
          subst he
          exact ⟨rfl, m, hmem, rfl, g2, g3⟩
        · intro r hr
          simp only [List.mem_singleton] at hr
          subst hr
          exact ⟨rfl, m, hmem, rfl, g1, g2, g3⟩
        · intro ev hev
          simp only [List.mem_cons, List.mem_singleton, List.not_mem_nil, or_false] at hev
          rcases hev with he | he
          · subst he
            refine ⟨?_, ?_, ?_⟩
            · intro cid m0 hee
              cases hee
              exact ⟨rfl, hmem, g2, g3⟩
            · intro cid m0 conf hee
              cases hee
            · intro cid ms' u tf stt hee
              cases hee
          · subst he
            refine ⟨?_, ?_, ?_⟩
            · intro cid m0 hee
              cases hee
            · intro cid m0 conf hee
              cases hee
              exact ⟨rfl, hmem, g2, g3, rfl⟩
            · intro cid ms' u tf stt hee
              cases hee
        · intro r hr _ _
          rfl
        · intro hc
          cases hc
      · by_cases g10 : ex.tokenMint = ctx.tokenMint ∧ ex.thresholdUsd = m.marketCapThresholdUsd.val
        case pos =>
          rw [step_idempotent env cfg ctx snaps ms ledger i m hit ex hmi g1 g2 g3 g4 g5 g6 g7 g8 g9 g10]
          refine ⟨fun x hx => Or.inl hx, ⟨[], by simp [stepNoop], by simp⟩, ?_, ?_, ?_, fun _ => rfl⟩
          · intro r hr
            simp only [stepNoop, List.mem_singleton] at hr
            subst hr
            exact ⟨rfl, m, hmem, rfl, g1, g2, g3⟩
          · intro ev hev
            simp only [stepNoop, List.mem_cons, List.mem_singleton, List.not_mem_nil,
              or_false] at hev
            rcases hev with he | he
            · subst he
              refine ⟨?_, ?_, ?_⟩
              · intro cid m0 hee
                cases hee
                exact ⟨rfl, hmem, g2, g3⟩
              · intro cid m0 conf hee
                cases hee
              · intro cid ms' u tf stt hee
                cases hee
            · subst he
              refine ⟨?_, ?_, ?_⟩
              · intro cid m0 hee
                cases hee
              · intro cid m0 conf hee
                cases hee
                exact ⟨rfl, hmem, g2, g3, rfl⟩
              · intro cid ms' u tf stt hee
                cases hee
          · intro r hr
            simp only [stepNoop, List.mem_singleton] at hr
            subst hr
            intro _ hid
            cases hid
        case neg =>
          have g10' : ex.tokenMint ≠ ctx.tokenMint ∨ ex.thresholdUsd ≠ m.marketCapThresholdUsd.val := by
            by_cases ha : ex.tokenMint = ctx.tokenMint
            · right
              intro hb
              exact g10 ⟨ha, hb⟩
            · exact Or.inl ha
          rw [step_mismatch env cfg ctx snaps ms ledger i m hit ex hmi g1 g2 g3 g4 g5 g6 g7 g8 g9 g10']
          refine ⟨fun x hx => Or.inl hx, ⟨[], by simp [stepNoop], by simp⟩, ?_, ?_,
            ?_, fun _ => rfl⟩
          · intro r hr
            simp only [stepNoop, List.mem_singleton] at hr
            subst hr
            exact ⟨rfl, m, hmem, rfl, g1, g2, g3⟩
          · intro ev hev
            simp only [stepNoop, List.mem_cons, List.mem_singleton, List.not_mem_nil,
              or_false] at hev
            rcases hev with he | he
            · subst he
              refine ⟨?_, ?_, ?_⟩
              · intro cid m0 hee
                cases hee
                exact ⟨rfl, hmem, g2, g3⟩
              · intro cid m0 conf hee
                cases hee
              · intro cid ms' u tf stt hee
                cases hee
            · subst he
              refine ⟨?_, ?_, ?_⟩
              · intro cid m0 hee
                cases hee
              · intro cid m0 conf hee
                cases hee
                exact ⟨rfl, hmem, g2, g3, rfl⟩
              · intro cid ms' u tf stt hee
                cases hee
          · intro r hr
            simp only [stepNoop, List.mem_singleton] at hr
            subst hr
            intro hc
            cases hc

/-- Master invariant of the per-milestone loop, lifted from
`processOneMilestone_master` by induction over the index list. -/

theorem msLoop_master (env : ChainEnv) (cfg : RunConfig) (ctx : MilestoneCtx)
    (snaps : List TokenMarketSnapshot) (idxs : List ℕ) (st : MilestoneStepOut) :
    (∀ x ∈ (msLoop env cfg ctx snaps idxs st).milestones,
        x ∈ st.milestones ∨ (x.completedAtUnix ≠ none ∧
          ∃ y ∈ st.milestones, y.id = x.id ∧ y.status = .locked ∧ y.completedAtUnix = none)) ∧
    (∃ extra, (msLoop env cfg ctx snaps idxs st).ledger = st.ledger ++ extra ∧
        ∀ e ∈ extra, e.commitmentId = ctx.commitmentId ∧
          ∃ m ∈ st.milestones, e.milestoneId = m.id ∧ m.status = .locked ∧
            m.completedAtUnix = none) ∧
    (∀ r ∈ (msLoop env cfg ctx snaps idxs st).results,
        r ∈ st.results ∨ (r.id = ctx.commitmentId ∧
          ∃ m ∈ st.milestones, r.milestoneId = some m.id ∧
            isMarketCapMilestone m = true ∧ m.status = .locked ∧ m.completedAtUnix = none)) ∧
    (∀ ev ∈ (msLoop env cfg ctx snaps idxs st).trace, ev ∈ st.trace ∨
      ((∀ cid m0, ev = .evalInvoked cid m0 →
          m0.status = .locked ∧ m0.completedAtUnix = none) ∧
       (∀ cid m0 conf, ev = .acquireAttempt cid m0 conf →
          m0.status = .locked ∧ m0.completedAtUnix = none) ∧
       (∀ cid ms' u tf stt, ev = .stateWrite cid ms' u tf stt → False))) ∧
    (∀ r ∈ (msLoop env cfg ctx snaps idxs st).results, r ∉ st.results →
        r.confirmed = some true → r.idempotent = none →
        (msLoop env cfg ctx snaps idxs st).changed = true) ∧
    ((msLoop env cfg ctx snaps idxs st).changed = false →
        (msLoop env cfg ctx snaps idxs st).milestones = st.milestones) ∧
    (st.changed = true → (msLoop env cfg ctx snaps idxs st).changed = true) := by
  induction idxs generalizing st with
  | nil =>
    refine ⟨fun x hx => Or.inl hx, ⟨[], by simp [msLoop], by simp⟩, fun r hr => Or.inl hr,
      fun ev hev => Or.inl hev, ?_, fun _ => rfl, fun h => h⟩
    intro r hr hnr
    exact absurd hr hnr
  | cons i rest ih =>
    simp only [msLoop]
    set stepOut := processOneMilestone env cfg ctx snaps st.milestones st.ledger i with hstep
    obtain ⟨sA, ⟨sExtra, sLed, sLedP⟩, sC, sD, sE, sF⟩ :=
      processOneMilestone_master env cfg ctx snaps st.milestones st.ledger i
    set st' : MilestoneStepOut :=
      { milestones := stepOut.milestones, ledger := stepOut.ledger,
        results := st.results ++ stepOut.results, trace := st.trace ++ stepOut.trace,
        changed := st.changed || stepOut.changed,
        confirmedInc := st.confirmedInc + stepOut.confirmedInc } with hst'
    obtain ⟨iA, ⟨iExtra, iLed, iLedP⟩, iC, iD, iE, iF, iG⟩ := ih st'
    have liftMs : ∀ z ∈ st'.milestones, z ∈ st.milestones ∨ (z.completedAtUnix ≠ none ∧
        ∃ y ∈ st.milestones, y.id = z.id ∧ y.status = .locked ∧ y.completedAtUnix = none) := by
      intro z hz
      exact sA z hz
    refine ⟨?_, ?_, ?_, ?_, ?_, ?_, ?_⟩
    · intro x hx
      rcases iA x hx with h | ⟨hne, y, hy, hyid, hyl, hyc⟩
      · exact liftMs x h
      · rcases liftMs y hy with h2 | ⟨hne2, _, _, _, _, hc2⟩
        · exact Or.inr ⟨hne, y, h2, hyid, hyl, hyc⟩
        · exact absurd hyc hne2
    · refine ⟨sExtra ++ iExtra, ?_, ?_⟩
      · rw [iLed]
        have : st'.ledger = st.ledger ++ sExtra := sLed
        rw [this, List.append_assoc]
      · intro e he
        rcases List.mem_append.mp he with h | h
        · exact sLedP e h
        · obtain ⟨hcid, m, hm, hmid, hml, hmc⟩ := iLedP e h
          rcases liftMs m hm with h2 | ⟨hne2, _, _, _, _, hc2⟩
          · exact ⟨hcid, m, h2, hmid, hml, hmc⟩
          · exact absurd hmc hne2
    · intro r hr
      rcases iC r hr with h | ⟨hid, m, hm, hmid, hmc, hml, hmn⟩
      · rcases List.mem_append.mp h with h2 | h2
        · exact Or.inl h2
        · obtain ⟨hid, m, hm, hmid, hmc, hml, hmn⟩ := sC r h2
          exact Or.inr ⟨hid, m, hm, hmid, hmc, hml, hmn⟩
      · rcases liftMs m hm with h2 | ⟨hne2, _, _, _, _, hc2⟩
        · exact Or.inr ⟨hid, m, h2, hmid, hmc, hml, hmn⟩
        · exact absurd hmn hne2
    · intro ev hev
      rcases iD ev hev with h | h
      · rcases List.mem_append.mp h with h2 | h2
        · exact Or.inl h2
        · refine Or.inr ⟨?_, ?_, ?_⟩
          · intro cid m0 he
            obtain ⟨_, _, hl, hc⟩ := (sD ev h2).1 cid m0 he
            exact ⟨hl, hc⟩
          · intro cid m0 conf he
            obtain ⟨_, _, hl, hc, _⟩ := (sD ev h2).2.1 cid m0 conf he
            exact ⟨hl, hc⟩
          · intro cid ms' u tf stt he
            exact absurd he (by exact fun hh => (sD ev h2).2.2 cid ms' u tf stt hh)
      · exact Or.inr h
    · intro r hr hnr hc hi
      by_cases hmem : r ∈ st'.results
      · have : r ∈ st.results ∨ r ∈ stepOut.results := by
          rcases List.mem_append.mp hmem with h | h
          · exact Or.inl h
          · exact Or.inr h
        rcases this with h | h
        · exact absurd h hnr
        · have hch : stepOut.changed = true := sE r h hc hi
          have : st'.changed = true := by
            simp [hst', hch]
          exact iG this
      · exact iE r hr hmem hc hi
    · intro hch
      have hst'ch : st'.changed = false := by
        by_cases h : st'.changed = true
        · exact absurd (iG h) (by simp [hch])
        · simpa using h
      have h2 : stepOut.changed = false := by
        have := hst'ch
        simp only [hst'] at this
        rcases Bool.or_eq_false_iff.mp this with ⟨_, h⟩
        exact h
      rw [iF hch]
      exact sF h2
    · intro hch
      apply iG
      simp [hst', hch]

/-! ### Canonical pair pin lemmas -/


theorem ingestLatestSnapshot_preserves (feed : List DexPair) (store : EscrowStore)
    (tok ch : String) (minLiq : ℚ) (now : ℤ) :
    ((ingestLatestSnapshot feed store tok ch minLiq now).2).confirmations = store.confirmations ∧
    ((ingestLatestSnapshot feed store tok ch minLiq now).2).commitments = store.commitments := by
  unfold ingestLatestSnapshot
  refine ⟨?_, ?_⟩ <;> (dsimp only; repeat' split) <;> rfl

theorem recordWithUrl_eq (p : CanonicalPair) : { p with url := p.url } = p := by
  cases p
  rfl

theorem getCanonicalPair_upsert (ps : List CanonicalPair) (c : CanonicalPair)
    (t ch : String) (p0 : CanonicalPair)
    (h : getCanonicalPair ps t ch = some p0) :
    ∃ u, getCanonicalPair (upsertCanonicalPair ps c) t ch = some { p0 with url := u } := by
  unfold upsertCanonicalPair
  split
  · have hmapped : getCanonicalPair (ps.map (fun p =>
        if p.tokenMint == c.tokenMint && p.chainId == c.chainId then
          { p with url := c.url } else p)) t ch
        = (getCanonicalPair ps t ch).map (fun p =>
            if p.tokenMint == c.tokenMint && p.chainId == c.chainId then
              { p with url := c.url } else p) := by
      unfold getCanonicalPair
      have hfun : ((fun p : CanonicalPair => p.tokenMint == t && p.chainId == ch) ∘ (fun p =>
          if p.tokenMint == c.tokenMint && p.chainId == c.chainId then
            { p with url := c.url } else p))
          = (fun p : CanonicalPair => p.tokenMint == t && p.chainId == ch) := by
        funext p
        simp only [Function.comp_apply]
        by_cases hp : (p.tokenMint == c.tokenMint && p.chainId == c.chainId) = true
        · rw [if_pos hp]
        · rw [if_neg hp]
      rw [List.find?_map, hfun]
    rw [hmapped, h]
    by_cases hp0 : (p0.tokenMint == c.tokenMint && p0.chainId == c.chainId) = true
    · refine ⟨c.url, ?_⟩
      simp only [Option.map_some']
      rw [if_pos hp0]
    · refine ⟨p0.url, ?_⟩
      simp only [Option.map_some']
      rw [if_neg hp0, recordWithUrl_eq]
  · refine ⟨p0.url, ?_⟩
    unfold getCanonicalPair at h ⊢
    rw [List.find?_append, h]
    simp [recordWithUrl_eq]


theorem ingest_pin_preserved (feed : List DexPair) (store : EscrowStore)
    (tok0 ch0 : String) (minLiq : ℚ) (now : ℤ) (t c : String) (p0 : CanonicalPair)
    (h : getCanonicalPair store.canonicalPairs t c = some p0) :
    ∃ p1, getCanonicalPair
        ((ingestLatestSnapshot feed store tok0 ch0 minLiq now).2).canonicalPairs t c
        = some p1 ∧ p1.pairAddress = p0.pairAddress ∧ p1.dexId = p0.dexId := by
  unfold ingestLatestSnapshot
  dsimp only
  repeat' split
  · exact ⟨p0, h, rfl, rfl⟩
  · exact ⟨p0, h, rfl, rfl⟩
  · exact ⟨p0, h, rfl, rfl⟩
  · obtain ⟨u, hu⟩ := getCanonicalPair_upsert store.canonicalPairs _ t c p0 h
    exact ⟨{ p0 with url := u }, hu, rfl, rfl⟩

theorem ingest_uses_pin (feed : List DexPair) (store : EscrowStore)
    (tok0 ch0 : String) (minLiq : ℚ) (now : ℤ) (cp : CanonicalPair) (q : DexPair)
    (hcp : getCanonicalPair store.canonicalPairs (jsTrim tok0) (jsToLower (jsTrim ch0))
      = some cp)
    (hne : jsTrim cp.pairAddress ≠ "")
    (hq : feed.find? (fun p => jsTrim p.pairAddress == jsTrim cp.pairAddress) = some q)
    (hdex : jsTrim q.dexId ≠ "")
    (hprice : 0 < q.priceUsd) :
    (ingestLatestSnapshot feed store tok0 ch0 minLiq now).1
      = .ok (jsTrim cp.pairAddress) (jsTrim q.dexId) := by
  have hqq : jsTrim q.pairAddress = jsTrim cp.pairAddress := by
    have := List.find?_some hq
    simpa using this
  unfold ingestLatestSnapshot
  dsimp only
  rw [hcp]
  dsimp only
  rw [if_pos (by simpa using hne), hq]
  dsimp only
  rw [if_neg (by
    rw [hqq]
    rintro (h | h)
    · exact hne h
    · exact hdex h)]
  rw [if_neg (by simpa using hprice)]
  rw [hqq]

/-! ### Invariants of one commitment iteration -/


theorem processCommitment_master (env : ChainEnv) (cfg : RunConfig) (st : RunState)
    (c : Commitment) :
    (∃ tailT, (processCommitment env cfg st c).trace = st.trace ++ tailT ∧ ∀ ev ∈ tailT,
       (∀ cid m0, ev = .evalInvoked cid m0 →
          m0.status = .locked ∧ m0.completedAtUnix = none) ∧
       (∀ cid m0 conf, ev = .acquireAttempt cid m0 conf →
          m0.status = .locked ∧ m0.completedAtUnix = none) ∧
       (∀ cid ms' u tf stt, ev = .stateWrite cid ms' u tf stt →
          cid = c.id ∧ u = computeUnlockedLamports ms')) ∧
    (∃ tailR, (processCommitment env cfg st c).results = st.results ++ tailR ∧ ∀ r ∈ tailR,
       (r.milestoneId = none ∧ r.id = c.id) ∨
       (r.id = c.id ∧ ∃ m ∈ c.milestones, r.milestoneId = some m.id ∧
          isMarketCapMilestone m = true ∧ m.status = .locked ∧ m.completedAtUnix = none)) ∧
    (∀ r ∈ (processCommitment env cfg st c).results, r ∉ st.results →
       r.confirmed = some true → r.idempotent = none →
       ∃ ms' u tf stt, TraceEvent.stateWrite c.id ms' u tf stt
          ∈ (processCommitment env cfg st c).trace ∧ u = computeUnlockedLamports ms') ∧
    (∃ extra, (processCommitment env cfg st c).store.confirmations
        = st.store.confirmations ++ extra ∧ ∀ e ∈ extra,
       e.commitmentId = c.id ∧ ∃ m ∈ c.milestones, e.milestoneId = m.id ∧
          m.status = .locked ∧ m.completedAtUnix = none) ∧
    (∀ c' ∈ (processCommitment env cfg st c).store.commitments,
       c' ∈ st.store.commitments ∨
       (∃ b ∈ st.store.commitments, c'.id = b.id ∧ b.id = c.id ∧
          ∀ m' ∈ c'.milestones, m' ∈ c.milestones ∨ (m'.completedAtUnix ≠ none ∧
            ∃ y ∈ c.milestones, y.id = m'.id ∧ y.status = .locked ∧
              y.completedAtUnix = none))) := by
  unfold processCommitment
  dsimp only
  by_cases htok : jsTrim c.tokenMint = ""
  · rw [if_pos htok]
    refine ⟨⟨[], by simp, by simp⟩, ⟨[], by simp, by simp⟩, ?_, ⟨[], by simp, by simp⟩,
      fun c' hc' => Or.inl hc'⟩
    intro r hr hnr
    exact absurd hr hnr
  rw [if_neg htok]
  obtain ⟨hpc, hpm⟩ := ingestLatestSnapshot_preserves (env.feedPairs (jsTrim c.tokenMint))
    st.store (jsTrim c.tokenMint) "solana" cfg.minLiquidityUsd env.nowUnix
  cases hing : (ingestLatestSnapshot (env.feedPairs (jsTrim c.tokenMint)) st.store
      (jsTrim c.tokenMint) "solana" cfg.minLiquidityUsd env.nowUnix).1 with
  | fail e =>
    refine ⟨⟨[], by simp, by simp⟩, ⟨_, rfl, ?_⟩, ?_, ⟨[], by simp [hpc], by simp⟩, ?_⟩
    · intro r hr
      simp only [List.mem_singleton] at hr
      subst hr
      exact Or.inl ⟨rfl, rfl⟩
    · intro r hr hnr hc hi
      rcases List.mem_append.mp hr with h | h
      · exact absurd h hnr
      · simp only [List.mem_singleton] at h
        subst h
        simp at hc
    · intro c' hc'
      rw [hpm] at hc'
      exact Or.inl hc'
  | ok pa dx =>
    dsimp only
    cases hcan : getCanonicalPair (ingestLatestSnapshot (env.feedPairs (jsTrim c.tokenMint))
        st.store (jsTrim c.tokenMint) "solana" cfg.minLiquidityUsd env.nowUnix).2.canonicalPairs
        (jsTrim c.tokenMint) "solana" with
    | none =>
      refine ⟨⟨[], by simp, by simp⟩, ⟨_, rfl, ?_⟩, ?_, ⟨[], by simp [hpc], by simp⟩, ?_⟩
      · intro r hr
        simp only [List.mem_singleton] at hr
        subst hr
        exact Or.inl ⟨rfl, rfl⟩
      · intro r hr hnr hc hi
        rcases List.mem_append.mp hr with h | h
        · exact absurd h hnr
        · simp only [List.mem_singleton] at h
          subst h
          simp at hc
      · intro c' hc'
        rw [hpm] at hc'
        exact Or.inl hc'
    | some canonical =>
      cases hmint : env.mintInfo (jsTrim c.tokenMint) with
      | none =>
        refine ⟨⟨[], by simp, by simp⟩, ⟨_, rfl, ?_⟩, ?_, ⟨[], by simp [hpc], by simp⟩, ?_⟩
        · intro r hr
          simp only [List.mem_singleton] at hr
          subst hr
          exact Or.inl ⟨rfl, rfl⟩
        · intro r hr hnr hc hi
          rcases List.mem_append.mp hr with h | h
          · exact absurd h hnr
          · simp only [List.mem_singleton] at h
            subst h
            simp at hc
        · intro c' hc'
          rw [hpm] at hc'
          exact Or.inl hc'
      | some info =>
        dsimp only
        obtain ⟨mA, ⟨extra, mLed, mLedP⟩, mC, mD, mE, mF, mG⟩ :=
          msLoop_master env cfg
            { commitmentId := c.id, tokenMint := jsTrim c.tokenMint, chainId := "solana",
              escrowPubkey := c.escrowPubkey, canonical := canonical,
              supplyUi := supplyUiAmount info.1 info.2,
              mintAuthority := env.mintAuthority (jsTrim c.tokenMint),
              sinceUnix := max 1 (env.nowUnix - cfg.lookbackSeconds),
              nowUnix := env.nowUnix }
            (ingestLatestSnapshot (env.feedPairs (jsTrim c.tokenMint)) st.store
              (jsTrim c.tokenMint) "solana" cfg.minLiquidityUsd env.nowUnix).2.snapshots
            (List.range c.milestones.length)
            { milestones := c.milestones,
              ledger := (ingestLatestSnapshot (env.feedPairs (jsTrim c.tokenMint)) st.store
                (jsTrim c.tokenMint) "solana" cfg.minLiquidityUsd env.nowUnix).2.confirmations,
              results := [], trace := [], changed := false, confirmedInc := 0 }
        set msOut := msLoop env cfg
            { commitmentId := c.id, tokenMint := jsTrim c.tokenMint, chainId := "solana",
              escrowPubkey := c.escrowPubkey, canonical := canonical,
              supplyUi := supplyUiAmount info.1 info.2,
              mintAuthority := env.mintAuthority (jsTrim c.tokenMint),
              sinceUnix := max 1 (env.nowUnix - cfg.lookbackSeconds),
              nowUnix := env.nowUnix }
            (ingestLatestSnapshot (env.feedPairs (jsTrim c.tokenMint)) st.store
              (jsTrim c.tokenMint) "solana" cfg.minLiquidityUsd env.nowUnix).2.snapshots
            (List.range c.milestones.length)
            { milestones := c.milestones,
              ledger := (ingestLatestSnapshot (env.feedPairs (jsTrim c.tokenMint)) st.store
                (jsTrim c.tokenMint) "solana" cfg.minLiquidityUsd env.nowUnix).2.confirmations,
              results := [], trace := [], changed := false, confirmedInc := 0 } with hmsdef
        have traceTail : ∀ ev ∈ msOut.trace,
            (∀ cid m0, ev = TraceEvent.evalInvoked cid m0 →
              m0.status = MilestoneStatus.locked ∧ m0.completedAtUnix = none) ∧
            (∀ cid m0 conf, ev = TraceEvent.acquireAttempt cid m0 conf →
              m0.status = MilestoneStatus.locked ∧ m0.completedAtUnix = none) ∧
            (∀ cid ms' u tf stt, ev = TraceEvent.stateWrite cid ms' u tf stt →
              cid = c.id ∧ u = computeUnlockedLamports ms') := by
          intro ev hev
          rcases mD ev hev with h | hP
          · simp at h
          · exact ⟨hP.1, hP.2.1, fun cid ms' u tf stt he => absurd he
              (fun hh => hP.2.2 cid ms' u tf stt hh)⟩
        have resTail : ∀ r ∈ msOut.results,
            r.id = c.id ∧ ∃ m ∈ c.milestones, r.milestoneId = some m.id ∧
              isMarketCapMilestone m = true ∧ m.status = MilestoneStatus.locked ∧
              m.completedAtUnix = none := by
          intro r hr
          rcases mC r hr with h | h
          · simp at h
          · exact h
        split
        next hch =>
          refine ⟨⟨_, by dsimp only; first | rfl | rw [List.append_assoc], ?_⟩,
            ⟨_, by dsimp only; first | rfl | rw [List.append_assoc], ?_⟩,
            ?_, ⟨extra, by rw [mLed, hpc], fun e he => mLedP e he⟩, ?_⟩
          · intro ev hev
            rcases List.mem_append.mp hev with h | h
            · exact traceTail ev h
            · simp only [List.mem_singleton] at h
              subst h
              refine ⟨?_, ?_, ?_⟩
              · intro cid m0 he
                cases he
              · intro cid m0 conf he
                cases he
              · intro cid ms' u tf stt he
                cases he
                exact ⟨rfl, rfl⟩
          · intro r hr
            rcases List.mem_append.mp hr with h | h
            · obtain ⟨hid, hrest⟩ := resTail r h
              exact Or.inr ⟨hid, hrest⟩
            · simp only [List.mem_singleton] at h
              subst h
              exact Or.inl ⟨rfl, rfl⟩
          · intro r hr hnr hc hi
            refine ⟨msOut.milestones, computeUnlockedLamports msOut.milestones,
              max 0 ((env.balanceLamports c.escrowPubkey : ℚ) + sumReleasedLamports msOut.milestones),
              (if c.status == "created" then "active" else c.status), ?_, rfl⟩
            dsimp only
            simp
          · intro c' hc'
            rw [hpm] at hc'
            obtain ⟨x, hx, hxe⟩ := List.mem_map.mp hc'
            by_cases hxid : (x.id == c.id) = true
            · rw [if_pos hxid] at hxe
              refine Or.inr ⟨x, hx, ?_, by simpa using hxid, ?_⟩
              · rw [← hxe]
              · intro m' hm'
                rw [← hxe] at hm'
                simp only at hm'
                rcases mA m' hm' with h | ⟨hne, y, hy, hrest⟩
                · exact Or.inl h
                · exact Or.inr ⟨hne, y, hy, hrest⟩
            · rw [if_neg hxid] at hxe
              rw [← hxe]
              exact Or.inl hx
        next hch =>
          refine ⟨⟨_, rfl, traceTail⟩,
            ⟨_, by dsimp only; first | rfl | rw [List.append_assoc], ?_⟩,
            ?_, ⟨extra, by rw [mLed, hpc], fun e he => mLedP e he⟩, ?_⟩
          · intro r hr
            rcases List.mem_append.mp hr with h | h
            · obtain ⟨hid, hrest⟩ := resTail r h
              exact Or.inr ⟨hid, hrest⟩
            · simp only [List.mem_singleton] at h
              subst h
              exact Or.inl ⟨rfl, rfl⟩
          · intro r hr hnr hc hi
            rcases List.mem_append.mp hr with h | h
            · rcases List.mem_append.mp h with h2 | h2
              · exact absurd h2 hnr
              · have := mE r h2 (by simp) hc hi
                exact absurd this hch
            · simp only [List.mem_singleton] at h
              subst h
              simp at hc
          · intro c' hc'
            rw [hpm] at hc'
            exact Or.inl hc'

/-! ### Run-level invariants -/


theorem runFold_skip (env : ChainEnv) (cfg : RunConfig) (cid mid : String)
    (store0 : EscrowStore)
    (hms : ∀ c0 ∈ store0.commitments, c0.id = cid →
      ∀ m ∈ c0.milestones, m.id = mid → m.completedAtUnix ≠ none)
    (cs : List Commitment) (hcs : ∀ c ∈ cs, c ∈ store0.commitments) :
    ∀ st : RunState,
    st.store.confirmations.filter
        (fun e => e.commitmentId == cid && e.milestoneId == mid)
      = store0.confirmations.filter
        (fun e => e.commitmentId == cid && e.milestoneId == mid) →
    (∀ r ∈ st.results, ¬ (r.id = cid ∧ r.milestoneId = some mid)) →
    (∀ c' ∈ st.store.commitments, c'.id = cid → ∀ m' ∈ c'.milestones, m'.id = mid →
       ∃ c0 ∈ store0.commitments, c0.id = cid ∧ m' ∈ c0.milestones) →
    (cs.foldl (processCommitment env cfg) st).store.confirmations.filter
        (fun e => e.commitmentId == cid && e.milestoneId == mid)
      = store0.confirmations.filter
        (fun e => e.commitmentId == cid && e.milestoneId == mid) ∧
    (∀ r ∈ (cs.foldl (processCommitment env cfg) st).results,
        ¬ (r.id = cid ∧ r.milestoneId = some mid)) ∧
    (∀ c' ∈ (cs.foldl (processCommitment env cfg) st).store.commitments, c'.id = cid →
        ∀ m' ∈ c'.milestones, m'.id = mid →
          ∃ c0 ∈ store0.commitments, c0.id = cid ∧ m' ∈ c0.milestones) := by
  induction cs with
  | nil => intro st h1 h2 h3; exact ⟨h1, h2, h3⟩
  | cons c cs ih =>
    intro st h1 h2 h3
    have hc : c ∈ store0.commitments := hcs c (by simp)
    have hcs' : ∀ x ∈ cs, x ∈ store0.commitments := fun x hx => hcs x (by simp [hx])
    obtain ⟨_, ⟨tailR, hR, hRP⟩, _, ⟨extra, hL, hLP⟩, hM⟩ :=
      processCommitment_master env cfg st c
    simp only [List.foldl_cons]
    have ihapp := ih hcs' (processCommitment env cfg st c)
    apply ihapp
    · rw [hL, List.filter_append, h1]
      have : extra.filter (fun e => e.commitmentId == cid && e.milestoneId == mid) = [] := by
        apply List.filter_eq_nil_iff.mpr
        intro e he hpred
        obtain ⟨hcid, m, hm, hmid, hml, hmc⟩ := hLP e he
        have hp1 : e.commitmentId = cid ∧ e.milestoneId = mid := by
          have := hpred
          simp at this
          exact this
        have hcide : c.id = cid := by rw [← hcid, hp1.1]
        have hmide : m.id = mid := by rw [← hmid, hp1.2]
        exact hms c hc hcide m hm hmide hmc
      rw [this, List.append_nil]
    · intro r hr
      rw [hR] at hr
      rcases List.mem_append.mp hr with h | h
      · exact h2 r h
      · rintro ⟨hid, hmid⟩
        rcases hRP r h with ⟨hnone, _⟩ | ⟨hcid, m, hm, hmideq, _, _, hmc⟩
        · rw [hnone] at hmid
          cases hmid
        · have hcide : c.id = cid := by rw [← hcid, hid]
          have hmide : m.id = mid := by
            rw [hmideq] at hmid
            exact Option.some.inj hmid
          exact hms c hc hcide m hm hmide hmc
    · intro c' hc' hcid' m' hm' hmid'
      rcases hM c' hc' with h | ⟨b, hb, hcb, hbc, hmprop⟩
      · exact h3 c' h hcid' m' hm' hmid'
      · have hcide : c.id = cid := by rw [← hbc, ← hcb, hcid']
        rcases hmprop m' hm' with h | ⟨hne, y, hy, hyid, hyl, hyc⟩
        · exact ⟨c, hc, hcide, h⟩
        · have hyide : y.id = mid := by rw [hyid, hmid']
          exact absurd hyc (by
            have := hms c hc hcide y hy hyide
            exact fun hh => this (by simp [hh]))


theorem runFold_trace_sound (env : ChainEnv) (cfg : RunConfig) (cs : List Commitment) :
    ∀ st : RunState, (∀ ev ∈ st.trace,
      (∀ cid m0, ev = TraceEvent.evalInvoked cid m0 →
          m0.status = MilestoneStatus.locked ∧ m0.completedAtUnix = none) ∧
      (∀ cid m0 conf, ev = TraceEvent.acquireAttempt cid m0 conf →
          m0.status = MilestoneStatus.locked ∧ m0.completedAtUnix = none) ∧
      (∀ cid ms' u tf stt, ev = TraceEvent.stateWrite cid ms' u tf stt →
          u = computeUnlockedLamports ms')) →
    ∀ ev ∈ (cs.foldl (processCommitment env cfg) st).trace,
      (∀ cid m0, ev = TraceEvent.evalInvoked cid m0 →
          m0.status = MilestoneStatus.locked ∧ m0.completedAtUnix = none) ∧
      (∀ cid m0 conf, ev = TraceEvent.acquireAttempt cid m0 conf →
          m0.status = MilestoneStatus.locked ∧ m0.completedAtUnix = none) ∧
      (∀ cid ms' u tf stt, ev = TraceEvent.stateWrite cid ms' u tf stt →
          u = computeUnlockedLamports ms') := by
  induction cs with
  | nil => intro st hst ev hev; exact hst ev hev
  | cons c cs ih =>
    intro st hst
    simp only [List.foldl_cons]
    apply ih
    obtain ⟨⟨tailT, hT, hTP⟩, _, _, _, _⟩ := processCommitment_master env cfg st c
    intro ev hev
    rw [hT] at hev
    rcases List.mem_append.mp hev with h | h
    · exact hst ev h
    · obtain ⟨p1, p2, p3⟩ := hTP ev h
      exact ⟨p1, p2, fun cid ms' u tf stt he => (p3 cid ms' u tf stt he).2⟩

theorem runFold_write_for_confirm (env : ChainEnv) (cfg : RunConfig) (cs : List Commitment) :
    ∀ st : RunState,
    (∀ r ∈ st.results, r.confirmed = some true → r.idempotent = none →
      ∃ ms' u tf stt, TraceEvent.stateWrite r.id ms' u tf stt ∈ st.trace ∧
        u = computeUnlockedLamports ms') →
    ∀ r ∈ (cs.foldl (processCommitment env cfg) st).results,
      r.confirmed = some true → r.idempotent = none →
      ∃ ms' u tf stt, TraceEvent.stateWrite r.id ms' u tf stt
          ∈ (cs.foldl (processCommitment env cfg) st).trace ∧
        u = computeUnlockedLamports ms' := by
  induction cs with
  | nil => intro st hst r hr; exact hst r hr
  | cons c cs ih =>
    intro st hst
    simp only [List.foldl_cons]
    apply ih
    obtain ⟨⟨tailT, hT, hTP⟩, ⟨tailR, hR, hRP⟩, hFW, _, _⟩ :=
      processCommitment_master env cfg st c
    intro r hr hc hi
    rw [hR] at hr
    rcases List.mem_append.mp hr with h | h
    · obtain ⟨ms', u, tf, stt, hmem, hu⟩ := hst r h hc hi
      exact ⟨ms', u, tf, stt, by rw [hT]; exact List.mem_append_left _ hmem, hu⟩
    · by_cases hmem : r ∈ st.results
      · obtain ⟨ms', u, tf, stt, hmem2, hu⟩ := hst r hmem hc hi
        exact ⟨ms', u, tf, stt, by rw [hT]; exact List.mem_append_left _ hmem2, hu⟩
      · have hin : r ∈ (processCommitment env cfg st c).results := by
          rw [hR]
          exact List.mem_append_right _ h
        obtain ⟨ms', u, tf, stt, hmemW, hu⟩ := hFW r hin hmem hc hi
        have hid : r.id = c.id := by
          rcases hRP r h with ⟨_, hid⟩ | ⟨hid, _⟩
          · exact hid
          · exact hid
        exact ⟨ms', u, tf, stt, by rw [hid]; exact hmemW, hu⟩


theorem computeUnlockedLamports_foldl (ms : List RewardMilestone) : ∀ acc : ℚ,
    ms.foldl (fun acc m =>
      if m.status = .claimable ∨ m.status = .released then acc + m.unlockLamports.orZero
      else acc) acc
    = acc + ((ms.filter (fun m => m.status == MilestoneStatus.claimable ||
        m.status == MilestoneStatus.released)).map (fun m => m.unlockLamports.orZero)).sum := by
  induction ms with
  | nil => intro acc; simp
  | cons m ms ih =>
    intro acc
    by_cases h : m.status = MilestoneStatus.claimable ∨ m.status = MilestoneStatus.released
    · have hb : (m.status == MilestoneStatus.claimable ||
          m.status == MilestoneStatus.released) = true := by
        rcases h with h | h <;> simp [h]
      simp only [List.foldl_cons, if_pos h, List.filter_cons, hb, if_true, List.map_cons,
        List.sum_cons]
      rw [ih (acc + m.unlockLamports.orZero)]
      ring
    · have hb : (m.status == MilestoneStatus.claimable ||
          m.status == MilestoneStatus.released) = false := by
        push_neg at h
        simp [h.1, h.2]
      simp only [List.foldl_cons, if_neg h, List.filter_cons, hb]
      rw [ih acc]
      simp

theorem computeUnlockedLamports_eq_filter_sum (ms : List RewardMilestone) :
    computeUnlockedLamports ms
    = ((ms.filter (fun m => m.status == MilestoneStatus.claimable ||
        m.status == MilestoneStatus.released)).map (fun m => m.unlockLamports.orZero)).sum := by
  unfold computeUnlockedLamports
  rw [computeUnlockedLamports_foldl ms 0]
  simp

theorem computeUnlockedLamports_approved_cons (m : RewardMilestone)
    (ms : List RewardMilestone) (h : m.status = MilestoneStatus.approved) :
    computeUnlockedLamports (m :: ms) = computeUnlockedLamports ms := by
  rw [computeUnlockedLamports_eq_filter_sum, computeUnlockedLamports_eq_filter_sum]
  have hb : (m.status == MilestoneStatus.claimable ||
      m.status == MilestoneStatus.released) = false := by simp [h]
  simp [List.filter_cons, hb]

theorem milestoneQualifies_false_of_completed (m : RewardMilestone)
    (h : m.completedAtUnix ≠ none) : milestoneQualifies m = false := by
  unfold milestoneQualifies
  rcases hc : m.completedAtUnix with _ | t
  · exact absurd hc h
  · simp [hc]


theorem capped_subset (store : EscrowStore) (fil : String) (lim : Option JsNum) :
    ∀ c ∈ (match lim with
      | some l => if l.finitePos then
          (store.commitments.filter (commitmentEligible fil)).take (min 200 ⌊l.val⌋).toNat
        else store.commitments.filter (commitmentEligible fil)
      | none => store.commitments.filter (commitmentEligible fil)),
      c ∈ store.commitments := by
  intro c hc
  rcases lim with _ | l
  · exact List.mem_of_mem_filter hc
  · dsimp only at hc
    split at hc
    · exact List.mem_of_mem_filter (List.mem_of_mem_take hc)
    · exact List.mem_of_mem_filter hc

/-- C4: a milestone with a non-null `completedAtUnix` does not qualify under
the eligible-commitment filter's milestone predicate, and an orchestrator run
never passes such a milestone to the threshold evaluator and never attempts
a ledger acquire for it: every evaluator invocation and every acquire
attempt in the run's trace concerns a milestone that is still locked with no
completion timestamp. -/
theorem completed_milestone_never_reevaluated (env : ChainEnv) (cfg : RunConfig)
    (fil : String) (lim : Option JsNum) (store : EscrowStore) :
    (∀ m : RewardMilestone, m.completedAtUnix ≠ none → milestoneQualifies m = false) ∧
    (∀ ev ∈ (runOrchestrator env cfg fil lim store).trace,
      (∀ cid m0, ev = TraceEvent.evalInvoked cid m0 →
        m0.status = MilestoneStatus.locked ∧ m0.completedAtUnix = none) ∧
      (∀ cid m0 conf, ev = TraceEvent.acquireAttempt cid m0 conf →
        m0.status = MilestoneStatus.locked ∧ m0.completedAtUnix = none)) := by
  constructor
  · exact milestoneQualifies_false_of_completed
  · unfold runOrchestrator
    dsimp only
    intro ev hev
    have := runFold_trace_sound env cfg _ _ (by intro ev2 hev2; simp at hev2) ev hev
    exact ⟨this.1, this.2.1⟩


/-- C10: every commitment state write performed by a run stores an
`unlockedLamports` equal to the sum of `unlockLamports` over exactly the
milestones whose status is claimable or released (so a freshly approved
milestone contributes nothing); every fresh (non-idempotent) confirmation in
a run is followed by such a state write for its commitment; and inserting an
approved milestone never changes the unlocked total. -/
theorem unlocked_total_is_claimable_released_sum (env : ChainEnv) (cfg : RunConfig)
    (fil : String) (lim : Option JsNum) (store : EscrowStore) :
    (∀ ev ∈ (runOrchestrator env cfg fil lim store).trace,
      ∀ cid ms' u tf stt, ev = TraceEvent.stateWrite cid ms' u tf stt →
        u = ((ms'.filter (fun m => m.status == MilestoneStatus.claimable ||
            m.status == MilestoneStatus.released)).map
              (fun m => m.unlockLamports.orZero)).sum) ∧
    (∀ r ∈ (runOrchestrator env cfg fil lim store).results,
        r.confirmed = some true → r.idempotent = none →
        ∃ ms' u tf stt, TraceEvent.stateWrite r.id ms' u tf stt
            ∈ (runOrchestrator env cfg fil lim store).trace ∧
          u = computeUnlockedLamports ms') ∧
    (∀ (m : RewardMilestone) (ms : List RewardMilestone),
        m.status = MilestoneStatus.approved →
        computeUnlockedLamports (m :: ms) = computeUnlockedLamports ms) := by
  refine ⟨?_, ?_, fun m ms h => computeUnlockedLamports_approved_cons m ms h⟩
  · unfold runOrchestrator
    dsimp only
    intro ev hev cid ms' u tf stt he
    have := (runFold_trace_sound env cfg _ _
      (by intro ev2 hev2; simp at hev2) ev hev).2.2 cid ms' u tf stt he
    rw [this, computeUnlockedLamports_eq_filter_sum]
  · unfold runOrchestrator
    dsimp only
    intro r hr hc hi
    exact runFold_write_for_confirm env cfg _ _
      (by intro r2 hr2; simp at hr2) r hr hc hi

/-- C1 (amended): once every milestone of a commitment carrying a given
(commitment id, milestone id) pair is completed — the state a successful
first invocation leaves behind — a further orchestrator invocation with an
unchanged feed leaves the ledger entries for that pair unchanged (so the
pair keeps exactly its one accepted confirmation), produces no per-milestone
result entry for that pair (in particular no `confirmed`/`idempotent`
report), and leaves every stored milestone record with that id unchanged. -/
theorem second_invocation_skips_confirmed_milestone (env : ChainEnv) (cfg : RunConfig)
    (fil : String) (lim : Option JsNum) (store : EscrowStore) (cid mid : String)
    (hms : ∀ c0 ∈ store.commitments, c0.id = cid →
      ∀ m ∈ c0.milestones, m.id = mid → m.completedAtUnix ≠ none) :
    (runOrchestrator env cfg fil lim store).store.confirmations.filter
        (fun e => e.commitmentId == cid && e.milestoneId == mid)
      = store.confirmations.filter
        (fun e => e.commitmentId == cid && e.milestoneId == mid) ∧
    (∀ r ∈ (runOrchestrator env cfg fil lim store).results,
        ¬ (r.id = cid ∧ r.milestoneId = some mid)) ∧
    (∀ c' ∈ (runOrchestrator env cfg fil lim store).store.commitments, c'.id = cid →
        ∀ m' ∈ c'.milestones, m'.id = mid →
          ∃ c0 ∈ store.commitments, c0.id = cid ∧ m' ∈ c0.milestones) := by
  unfold runOrchestrator
  dsimp only
  exact runFold_skip env cfg cid mid store hms _ (capped_subset store fil lim) _
    rfl (by intro r hr; simp at hr)
    (fun c' hc' hcid m' hm' hmid => ⟨c', hc', hcid, hm'⟩)


/-- C3: when the ledger acquire finds an existing confirmation whose token or
threshold differs from what the caller just computed, the milestone iteration
emits a failure entry (`ok: false`, error "Existing confirmation mismatch"),
leaves every milestone and every ledger record unchanged, and marks no state
change — the existing record is never reconciled or modified. -/
theorem mismatch_surfaced_never_reconciled (env : ChainEnv) (cfg : RunConfig)
    (ctx : MilestoneCtx) (snaps : List TokenMarketSnapshot)
    (ms : List RewardMilestone) (ledger : List MarketCapConfirmation)
    (i : ℕ) (m : RewardMilestone) (hit : TokenMarketSnapshot)
    (ex : MarketCapConfirmation)
    (hmi : ms[i]? = some m)
    (h1 : isMarketCapMilestone m = true)
    (h2 : m.status = MilestoneStatus.locked)
    (h3 : m.completedAtUnix = none)
    (h4 : m.marketCapThresholdUsd.finitePos = true)
    (h5 : ¬ (effectiveRequireNoMintAuthority m = true ∧ ctx.mintAuthority.isSome = true))
    (h6 : 0 < ctx.supplyUi)
    (h7 : findFirstTokenMarketSnapshotAbovePrice snaps ctx.tokenMint ctx.chainId
        ctx.canonical.pairAddress ctx.sinceUnix (m.marketCapThresholdUsd.val / ctx.supplyUi)
        cfg.minLiquidityUsd cfg.minVolumeH1Usd = some hit)
    (h8 : 0 < computeUnlockLamports m (totalFundedOf env ctx ms))
    (h9 : ledger.find? (fun e =>
        e.commitmentId == ctx.commitmentId && e.milestoneId == m.id) = some ex)
    (h10 : ex.tokenMint ≠ ctx.tokenMint ∨ ex.thresholdUsd ≠ m.marketCapThresholdUsd.val) :
    (processOneMilestone env cfg ctx snaps ms ledger i).results =
      [{ id := ctx.commitmentId, milestoneId := some m.id, ok := false,
         step := some "confirm", error := some "Existing confirmation mismatch" }] ∧
    (processOneMilestone env cfg ctx snaps ms ledger i).milestones = ms ∧
    (processOneMilestone env cfg ctx snaps ms ledger i).ledger = ledger ∧
    (processOneMilestone env cfg ctx snaps ms ledger i).changed = false := by
  rw [step_mismatch env cfg ctx snaps ms ledger i m hit ex hmi h1 h2 h3 h4 h5 h6 h7 h8 h9 h10]
  exact ⟨rfl, rfl, rfl, rfl⟩

/-- C5: a fresh confirmation with completion time `T = completedAtOf ctx hit`
and claim delay `D = cfg.claimDelaySeconds` writes back a milestone whose
`claimableAtUnix` is `T + D` and whose status is claimable when the chain
clock has reached `T + D` and approved otherwise; in particular with
`D` = 48 hours (172800 s) and chain clock `T` + 10 hours (36000 s) the
status is approved and `claimableAtUnix = T + 172800`. -/
theorem claim_delay_schedule (env : ChainEnv) (cfg : RunConfig)
    (ctx : MilestoneCtx) (snaps : List TokenMarketSnapshot)
    (ms : List RewardMilestone) (ledger : List MarketCapConfirmation)
    (i : ℕ) (m : RewardMilestone) (hit : TokenMarketSnapshot)
    (hmi : ms[i]? = some m)
    (h1 : isMarketCapMilestone m = true)
    (h2 : m.status = MilestoneStatus.locked)
    (h3 : m.completedAtUnix = none)
    (h4 : m.marketCapThresholdUsd.finitePos = true)
    (h5 : ¬ (effectiveRequireNoMintAuthority m = true ∧ ctx.mintAuthority.isSome = true))
    (h6 : 0 < ctx.supplyUi)
    (h7 : findFirstTokenMarketSnapshotAbovePrice snaps ctx.tokenMint ctx.chainId
        ctx.canonical.pairAddress ctx.sinceUnix (m.marketCapThresholdUsd.val / ctx.supplyUi)
        cfg.minLiquidityUsd cfg.minVolumeH1Usd = some hit)
    (h8 : 0 < computeUnlockLamports m (totalFundedOf env ctx ms))
    (h9 : ledger.find? (fun e =>
        e.commitmentId == ctx.commitmentId && e.milestoneId == m.id) = none) :
    ∃ m', (processOneMilestone env cfg ctx snaps ms ledger i).milestones = ms.set i m' ∧
      m'.completedAtUnix = some (completedAtOf ctx hit) ∧
      m'.claimableAtUnix = some (completedAtOf ctx hit + cfg.claimDelaySeconds) ∧
      m'.status = (if completedAtOf ctx hit + cfg.claimDelaySeconds ≤ ctx.nowUnix
        then MilestoneStatus.claimable else MilestoneStatus.approved) ∧
      (cfg.claimDelaySeconds = 172800 → ctx.nowUnix = completedAtOf ctx hit + 36000 →
        m'.status = MilestoneStatus.approved ∧
        m'.claimableAtUnix = some (completedAtOf ctx hit + 172800)) := by
  refine ⟨updatedMilestoneOf env cfg ctx ms m hit, ?_, ?_, ?_, ?_, ?_⟩
  · rw [step_fresh env cfg ctx snaps ms ledger i m hit hmi h1 h2 h3 h4 h5 h6 h7 h8 h9]
  · rfl
  · rfl
  · rfl
  · intro hD hnow
    unfold updatedMilestoneOf
    dsimp only
    have hc : ¬ (completedAtOf ctx hit + cfg.claimDelaySeconds ≤ ctx.nowUnix) := by omega
    exact ⟨by rw [if_neg hc], by rw [hD]⟩

/-- C8: when the milestone's effective `requireNoMintAuthority` flag is set
and a mint/freeze authority is present, the iteration records a skip — `ok:
true`, `confirmed: false`, reason `mint_authority_present`, no error — with an
empty trace (so the threshold evaluator is never invoked and no ledger
acquire is attempted), no milestone change and no ledger change. -/
theorem mint_authority_present_skips (env : ChainEnv) (cfg : RunConfig)
    (ctx : MilestoneCtx) (snaps : List TokenMarketSnapshot)
    (ms : List RewardMilestone) (ledger : List MarketCapConfirmation)
    (i : ℕ) (m : RewardMilestone)
    (hmi : ms[i]? = some m)
    (h1 : isMarketCapMilestone m = true)
    (h2 : m.status = MilestoneStatus.locked)
    (h3 : m.completedAtUnix = none)
    (h4 : m.marketCapThresholdUsd.finitePos = true)
    (h5 : effectiveRequireNoMintAuthority m = true)
    (h6 : ctx.mintAuthority.isSome = true) :
    (processOneMilestone env cfg ctx snaps ms ledger i).results =
      [{ id := ctx.commitmentId, milestoneId := some m.id, ok := true,
         step := some "evaluate", confirmed := some false,
         reason := some "mint_authority_present" }] ∧
    (processOneMilestone env cfg ctx snaps ms ledger i).trace = [] ∧
    (processOneMilestone env cfg ctx snaps ms ledger i).milestones = ms ∧
    (processOneMilestone env cfg ctx snaps ms ledger i).ledger = ledger ∧
    (processOneMilestone env cfg ctx snaps ms ledger i).changed = false := by
  rw [step_mintAuthority env cfg ctx snaps ms ledger i m hmi h1 h2 h3 h4 h5 h6]
  exact ⟨rfl, rfl, rfl, rfl, rfl⟩

/-- A milestone with a negative (finite, non-zero) absolute unlock amount and
a positive percentage, exercising the precedence branch of
`computeUnlockLamports`. -/
def mNegAbs : RewardMilestone :=
  { id := "m", status := .locked, unlockLamports := .num (-1),
    unlockPercent := .num 50, autoKind := "market_cap",
    marketCapThresholdUsd := .num 1000, requireNoMintAuthority := none,
    completedAtUnix := none, approvedAtUnix := none, claimableAtUnix := none,
    becameClaimableAtUnix := none, autoConfirmedAtUnix := none,
    autoEvidence := none }

/-- C6 counterexample: a finite, non-zero but negative absolute
`unlockLamports` does not take precedence — the code requires the absolute
amount to be positive, so a milestone with `unlockLamports = -1` and
`unlockPercent = 50` unlocks the percentage amount, not `⌊-1⌋`. -/
theorem unlock_precedence_counterexample :
    ∃ (m : RewardMilestone) (tf : ℚ),
      m.unlockLamports.isFinite = true ∧ m.unlockLamports.val ≠ 0 ∧
      m.unlockPercent.finitePos = true ∧
      computeUnlockLamports m tf ≠ ((⌊m.unlockLamports.val⌋ : ℤ) : ℚ) ∧
      computeUnlockLamports m tf = ((⌊tf * m.unlockPercent.val / 100⌋ : ℤ) : ℚ) := by
  refine ⟨mNegAbs, 200, rfl, by norm_num [mNegAbs, JsNum.val], by decide, ?_, ?_⟩
  · show computeUnlockLamports _ _ ≠ _
    unfold computeUnlockLamports
    norm_num [mNegAbs, JsNum.finitePos, JsNum.isFinite, JsNum.val]
  · unfold computeUnlockLamports
    norm_num [mNegAbs, JsNum.finitePos, JsNum.isFinite, JsNum.val]

/-- C6 (amended): the computed unlock amount is the floored absolute
`unlockLamports` whenever that amount is finite and positive (absolute takes
precedence over percentage even when both are set), otherwise
`⌊totalFunded * unlockPercent / 100⌋` when the percentage is finite and
positive, otherwise 0; and the funded base equals the current escrow balance
plus the already-released amount, clamped non-negative. -/
theorem unlock_amount_precedence (m : RewardMilestone) (tf : ℚ)
    (env : ChainEnv) (ctx : MilestoneCtx) (ms : List RewardMilestone) :
    (m.unlockLamports.finitePos = true →
      computeUnlockLamports m tf = ((⌊m.unlockLamports.val⌋ : ℤ) : ℚ)) ∧
    (m.unlockLamports.finitePos = false → m.unlockPercent.finitePos = true →
      computeUnlockLamports m tf = ((⌊tf * m.unlockPercent.val / 100⌋ : ℤ) : ℚ)) ∧
    (m.unlockLamports.finitePos = false → m.unlockPercent.finitePos = false →
      computeUnlockLamports m tf = 0) ∧
    totalFundedOf env ctx ms
      = max 0 ((env.balanceLamports ctx.escrowPubkey : ℚ) + sumReleasedLamports ms) := by
  refine ⟨?_, ?_, ?_, rfl⟩
  · intro h
    unfold computeUnlockLamports
    rw [if_pos h]
  · intro h1 h2
    unfold computeUnlockLamports
    rw [if_neg (by simp [h1]), if_pos h2]
  · intro h1 h2
    unfold computeUnlockLamports
    rw [if_neg (by simp [h1]), if_neg (by simp [h2])]

/-- C7: the canonical-pair pin is sticky — (i) every pinned (token, chain)
entry survives any ingestion with its `pairAddress` and `dexId` unchanged,
whatever the feed offers as best-liquidity candidate; (ii) whenever the
pinned pair for the ingested token is present among the live feed's
candidates (and passes the trivial validity checks), the ingestion uses the
pinned pair, not the best-liquidity candidate. -/
theorem canonical_pin_sticky (feed : List DexPair) (store : EscrowStore)
    (tok0 ch0 : String) (minLiq : ℚ) (now : ℤ) :
    (∀ t c p0, getCanonicalPair store.canonicalPairs t c = some p0 →
      ∃ p1, getCanonicalPair
          ((ingestLatestSnapshot feed store tok0 ch0 minLiq now).2).canonicalPairs t c
          = some p1 ∧ p1.pairAddress = p0.pairAddress ∧ p1.dexId = p0.dexId) ∧
    (∀ cp q,
      getCanonicalPair store.canonicalPairs (jsTrim tok0) (jsToLower (jsTrim ch0)) = some cp →
      jsTrim cp.pairAddress ≠ "" →
      feed.find? (fun p => jsTrim p.pairAddress == jsTrim cp.pairAddress) = some q →
      jsTrim q.dexId ≠ "" → 0 < q.priceUsd →
      (ingestLatestSnapshot feed store tok0 ch0 minLiq now).1
        = IngestOutcome.ok (jsTrim cp.pairAddress) (jsTrim q.dexId)) :=
  ⟨fun t c p0 h => ingest_pin_preserved feed store tok0 ch0 minLiq now t c p0 h,
   fun cp q hcp hne hq hdex hprice =>
     ingest_uses_pin feed store tok0 ch0 minLiq now cp q hcp hne hq hdex hprice⟩

/-! ### Equational forms of the run wrappers -/

theorem runOrchestrator_single (env : ChainEnv) (cfg : RunConfig) (fil : String)
    (s : EscrowStore) (c : Commitment)
    (hfil : s.commitments.filter (commitmentEligible fil) = [c]) :
    runOrchestrator env cfg fil none s
      = processCommitment env cfg
          { store := s, results := [], trace := [], confirmedCount := 0 } c := by
  unfold runOrchestrator
  dsimp only
  rw [hfil]
  rfl

theorem runOrchestrator_none (env : ChainEnv) (cfg : RunConfig) (fil : String)
    (lim : Option JsNum) (s : EscrowStore)
    (hfil : s.commitments.filter (commitmentEligible fil) = []) :
    runOrchestrator env cfg fil lim s
      = { store := s, results := [], trace := [], confirmedCount := 0 } := by
  unfold runOrchestrator
  dsimp only
  rw [hfil]
  rcases lim with _ | l
  · rfl
  · dsimp only
    split
    · rw [List.take_nil]
      rfl
    · rfl

theorem processCommitment_changed_eq (env : ChainEnv) (cfg : RunConfig) (st : RunState)
    (c : Commitment) (tm pa dx : String) (store1 : EscrowStore)
    (canonical : CanonicalPair) (info : ℕ × ℤ) (out : MilestoneStepOut)
    (hjs : jsTrim c.tokenMint = tm)
    (htm : ¬ tm = "")
    (hing : ingestLatestSnapshot (env.feedPairs tm) st.store tm "solana"
        cfg.minLiquidityUsd env.nowUnix = (IngestOutcome.ok pa dx, store1))
    (hcp : getCanonicalPair store1.canonicalPairs tm "solana" = some canonical)
    (hmint : env.mintInfo tm = some info)
    (hout : msLoop env cfg
        { commitmentId := c.id, tokenMint := tm, chainId := "solana",
          escrowPubkey := c.escrowPubkey, canonical := canonical,
          supplyUi := supplyUiAmount info.1 info.2,
          mintAuthority := env.mintAuthority tm,
          sinceUnix := max 1 (env.nowUnix - cfg.lookbackSeconds),
          nowUnix := env.nowUnix }
        store1.snapshots (List.range c.milestones.length)
        { milestones := c.milestones, ledger := store1.confirmations,
          results := [], trace := [], changed := false, confirmedInc := 0 } = out)
    (hch : out.changed = true) :
    processCommitment env cfg st c =
      { store :=
          { commitments := store1.commitments.map (fun x =>
              if x.id == c.id then
                { x with
                  milestones := out.milestones,
                  unlockedLamports := computeUnlockedLamports out.milestones,
                  totalFundedLamports := max 0
                    ((env.balanceLamports c.escrowPubkey : ℚ)
                      + sumReleasedLamports out.milestones),
                  status := if c.status == "created" then "active" else c.status }
              else x),
            canonicalPairs := store1.canonicalPairs,
            snapshots := store1.snapshots,
            confirmations := out.ledger },
        results := st.results ++ out.results ++ [{ id := c.id, ok := true }],
        trace := st.trace ++ out.trace ++
          [TraceEvent.stateWrite c.id out.milestones
            (computeUnlockedLamports out.milestones)
            (max 0 ((env.balanceLamports c.escrowPubkey : ℚ)
              + sumReleasedLamports out.milestones))
            (if c.status == "created" then "active" else c.status)],
        confirmedCount := st.confirmedCount + out.confirmedInc } := by
  unfold processCommitment
  dsimp only
  rw [hjs, if_neg htm, hing]
  dsimp only
  rw [hcp, hmint]
  dsimp only
  rw [hout, hch, if_pos rfl]

theorem processCommitment_unchanged_eq (env : ChainEnv) (cfg : RunConfig) (st : RunState)
    (c : Commitment) (tm pa dx : String) (store1 : EscrowStore)
    (canonical : CanonicalPair) (info : ℕ × ℤ) (out : MilestoneStepOut)
    (hjs : jsTrim c.tokenMint = tm)
    (htm : ¬ tm = "")
    (hing : ingestLatestSnapshot (env.feedPairs tm) st.store tm "solana"
        cfg.minLiquidityUsd env.nowUnix = (IngestOutcome.ok pa dx, store1))
    (hcp : getCanonicalPair store1.canonicalPairs tm "solana" = some canonical)
    (hmint : env.mintInfo tm = some info)
    (hout : msLoop env cfg
        { commitmentId := c.id, tokenMint := tm, chainId := "solana",
          escrowPubkey := c.escrowPubkey, canonical := canonical,
          supplyUi := supplyUiAmount info.1 info.2,
          mintAuthority := env.mintAuthority tm,
          sinceUnix := max 1 (env.nowUnix - cfg.lookbackSeconds),
          nowUnix := env.nowUnix }
        store1.snapshots (List.range c.milestones.length)
        { milestones := c.milestones, ledger := store1.confirmations,
          results := [], trace := [], changed := false, confirmedInc := 0 } = out)
    (hch : out.changed = false) :
    processCommitment env cfg st c =
      { store :=
          { commitments := store1.commitments,
            canonicalPairs := store1.canonicalPairs,
            snapshots := store1.snapshots,
            confirmations := out.ledger },
        results := st.results ++ out.results ++ [{ id := c.id, ok := true }],
        trace := st.trace ++ out.trace,
        confirmedCount := st.confirmedCount + out.confirmedInc } := by
  unfold processCommitment
  dsimp only
  rw [hjs, if_neg htm, hing]
  dsimp only
  rw [hcp, hmint]
  dsimp only
  rw [hout, hch, if_neg (by simp)]


/-! ### A concrete scenario: one eligible commitment, one locked market-cap
milestone, a feed whose best pair clears every floor. -/

/-- Feed candidate returned by the price feed for the example token. -/
def feedPairEx : DexPair :=
  { chainId := "solana", pairAddress := "PAIR", dexId := "ray", priceUsd := 2,
    liquidityUsd := 100000, volumeH1Usd := 0, volumeH24Usd := 0,
    fdvUsd := none, marketCapUsd := none, url := none }

/-- Deterministic chain/feed environment for the example runs. -/
def testEnv : ChainEnv :=
  { nowUnix := 1000000,
    feedPairs := fun t => if t == "TOK" then [feedPairEx] else [],
    mintInfo := fun t => if t == "TOK" then some (1000, 0) else none,
    mintAuthority := fun _ => none,
    balanceLamports := fun e => if e == "ESC" then 500 else 0 }

/-- A locked market-cap milestone: 50% unlock, 1000 USD threshold. -/
def m1Ex : RewardMilestone :=
  { id := "m1", status := .locked, unlockLamports := .num 0,
    unlockPercent := .num 50, autoKind := "market_cap",
    marketCapThresholdUsd := .num 1000, requireNoMintAuthority := none,
    completedAtUnix := none, approvedAtUnix := none, claimableAtUnix := none,
    becameClaimableAtUnix := none, autoConfirmedAtUnix := none,
    autoEvidence := none }

/-- The example commitment holding `m1Ex`. -/
def c1Ex : Commitment :=
  { id := "c1", kind := "creator_reward", tokenMint := "TOK",
    escrowPubkey := "ESC", status := "active", unlockedLamports := 0,
    totalFundedLamports := 0, milestones := [m1Ex] }

/-- Initial store for the example runs. -/
def store0Ex : EscrowStore :=
  { commitments := [c1Ex], canonicalPairs := [], snapshots := [],
    confirmations := [] }

/-- The canonical pair pinned on first ingestion. -/
def cpEx : CanonicalPair :=
  { tokenMint := "TOK", chainId := "solana", pairAddress := "PAIR",
    dexId := "ray", url := none }

/-- The snapshot appended on first ingestion. -/
def snapEx : TokenMarketSnapshot :=
  { tokenMint := "TOK", chainId := "solana", pairAddress := "PAIR",
    dexId := "ray", fetchedAtUnix := 1000000, priceUsd := 2,
    liquidityUsd := 100000, volumeH1Usd := 0, volumeH24Usd := 0,
    fdvUsd := none, marketCapUsd := none }

/-- The store after ingestion, before the milestone loop. -/
def store2Ex : EscrowStore :=
  { commitments := [c1Ex], canonicalPairs := [cpEx], snapshots := [snapEx],
    confirmations := [] }

/-- The per-milestone context computed for `c1Ex`. -/
def ctxEx : MilestoneCtx :=
  { commitmentId := "c1", tokenMint := "TOK", chainId := "solana",
    escrowPubkey := "ESC", canonical := cpEx, supplyUi := 1000,
    mintAuthority := none, sinceUnix := 1, nowUnix := 1000000 }

/-- The confirmation record the first run inserts. -/
def confEx : MarketCapConfirmation :=
  { commitmentId := "c1", milestoneId := "m1", tokenMint := "TOK",
    confirmedAtUnix := 1000000, totalFundedLamports := 500,
    unlockLamports := 250, thresholdUsd := 1000, chainId := "solana",
    pairAddress := "PAIR", dexId := "ray" }

/-- The evidence payload assembled for the hit. -/
def evEx : MarketCapEvidence :=
  { tokenMint := "TOK", chainId := "solana", thresholdUsd := 1000,
    confirmedAtUnix := 1000000, hitAtUnix := 1000000, hitPriceUsd := 2,
    pairAddress := "PAIR", dexId := "ray", minPriceUsd := 1, sinceUnix := 1 }

/-- `m1Ex` after the fresh confirmation: approved, completion stamped,
claimable 48 hours later. -/
def m1doneEx : RewardMilestone :=
  { id := "m1", status := .approved, unlockLamports := .num 250,
    unlockPercent := .num 50, autoKind := "market_cap",
    marketCapThresholdUsd := .num 1000, requireNoMintAuthority := none,
    completedAtUnix := some 1000000, approvedAtUnix := some 1000000,
    claimableAtUnix := some 1172800, becameClaimableAtUnix := none,
    autoConfirmedAtUnix := some 1000000, autoEvidence := some evEx }

/-- The fresh-confirmation result entry of the first run. -/
def resFreshEx : ResultEntry :=
  { id := "c1", milestoneId := some "m1", ok := true, step := some "confirm",
    confirmed := some true, unlockLamports := some 250 }

/-- `c1Ex` after the first run's state write. -/
def c1doneEx : Commitment :=
  { id := "c1", kind := "creator_reward", tokenMint := "TOK",
    escrowPubkey := "ESC", status := "active", unlockedLamports := 0,
    totalFundedLamports := 500, milestones := [m1doneEx] }

/-- The store after the first run. -/
def store3Ex : EscrowStore :=
  { commitments := [c1doneEx], canonicalPairs := [cpEx], snapshots := [snapEx],
    confirmations := [confEx] }

theorem supplyUiEx_eq : supplyUiAmount 1000 0 = 1000 := by
  norm_num [supplyUiAmount, digitsBE, listPadStart, ofDigitsBE]

theorem ctxEx_eq :
    ({ commitmentId := c1Ex.id, tokenMint := "TOK", chainId := "solana",
       escrowPubkey := c1Ex.escrowPubkey, canonical := cpEx,
       supplyUi := supplyUiAmount 1000 0,
       mintAuthority := testEnv.mintAuthority "TOK",
       sinceUnix := max 1 (testEnv.nowUnix - defaultRunConfig.lookbackSeconds),
       nowUnix := testEnv.nowUnix } : MilestoneCtx) = ctxEx := by
  simp only [ctxEx, c1Ex, testEnv, defaultRunConfig, supplyUiEx_eq]
  norm_num

theorem findEx_eq :
    findFirstTokenMarketSnapshotAbovePrice [snapEx] ctxEx.tokenMint ctxEx.chainId
      ctxEx.canonical.pairAddress ctxEx.sinceUnix
      (m1Ex.marketCapThresholdUsd.val / ctxEx.supplyUi)
      defaultRunConfig.minLiquidityUsd defaultRunConfig.minVolumeH1Usd = some snapEx := by
  have hq : m1Ex.marketCapThresholdUsd.val / ctxEx.supplyUi = 1 := by
    norm_num [m1Ex, ctxEx, JsNum.val]
  rw [hq]
  decide

theorem totalFundedEx_eq : totalFundedOf testEnv ctxEx [m1Ex] = 500 := by
  norm_num [totalFundedOf, sumReleasedLamports, JsNum.orZero, testEnv, ctxEx, m1Ex]

theorem unlockEx_eq :
    computeUnlockLamports m1Ex (totalFundedOf testEnv ctxEx [m1Ex]) = 250 := by
  rw [totalFundedEx_eq]
  norm_num [computeUnlockLamports, m1Ex, JsNum.finitePos, JsNum.isFinite, JsNum.val]

theorem unlockPosEx : 0 < computeUnlockLamports m1Ex (totalFundedOf testEnv ctxEx [m1Ex]) := by
  rw [unlockEx_eq]
  norm_num

theorem confirmationEx_eq : confirmationOf testEnv ctxEx [m1Ex] m1Ex = confEx := by
  unfold confirmationOf confEx
  rw [unlockEx_eq, totalFundedEx_eq]
  norm_num [ctxEx, m1Ex, JsNum.val, cpEx]

theorem updatedEx_eq :
    updatedMilestoneOf testEnv defaultRunConfig ctxEx [m1Ex] m1Ex snapEx = m1doneEx := by
  unfold updatedMilestoneOf
  dsimp only
  rw [unlockEx_eq]
  norm_num [completedAtOf, evidenceOf, ctxEx, snapEx, defaultRunConfig, m1doneEx, m1Ex,
    evEx, JsNum.val, cpEx]
  intro h
  exact absurd h (by decide)

theorem stepEx_eq :
    processOneMilestone testEnv defaultRunConfig ctxEx [snapEx] [m1Ex] [] 0 =
      { milestones := [m1doneEx], ledger := [confEx], results := [resFreshEx],
        trace := [.evalInvoked "c1" m1Ex, .acquireAttempt "c1" m1Ex confEx],
        changed := true, confirmedInc := 1 } := by
  rw [step_fresh testEnv defaultRunConfig ctxEx [snapEx] [m1Ex] [] 0 m1Ex snapEx
    rfl (by decide) rfl rfl (by decide) (by decide) (by decide) findEx_eq unlockPosEx rfl]
  rw [confirmationEx_eq, updatedEx_eq, unlockEx_eq]
  norm_num [resFreshEx, ctxEx, m1Ex]


theorem ingEx_eq :
    ingestLatestSnapshot (testEnv.feedPairs "TOK") store0Ex "TOK" "solana"
      defaultRunConfig.minLiquidityUsd testEnv.nowUnix
    = (IngestOutcome.ok "PAIR" "ray", store2Ex) := by decide

theorem msLoopEx_eq :
    msLoop testEnv defaultRunConfig ctxEx store2Ex.snapshots
      (List.range c1Ex.milestones.length)
      { milestones := c1Ex.milestones, ledger := store2Ex.confirmations,
        results := [], trace := [], changed := false, confirmedInc := 0 }
    = { milestones := [m1doneEx], ledger := [confEx], results := [resFreshEx],
        trace := [.evalInvoked "c1" m1Ex, .acquireAttempt "c1" m1Ex confEx],
        changed := true, confirmedInc := 1 } := by
  have hr : List.range c1Ex.milestones.length = [0] := by decide
  rw [hr]
  show msLoop testEnv defaultRunConfig ctxEx store2Ex.snapshots [0]
      { milestones := [m1Ex], ledger := [], results := [], trace := [],
        changed := false, confirmedInc := 0 } = _
  unfold msLoop
  rw [show store2Ex.snapshots = [snapEx] from rfl, stepEx_eq]
  unfold msLoop
  rfl

theorem run1Ex_eq :
    runOrchestrator testEnv defaultRunConfig "" none store0Ex =
      { store := store3Ex,
        results := [resFreshEx, { id := "c1", ok := true }],
        trace := [.evalInvoked "c1" m1Ex, .acquireAttempt "c1" m1Ex confEx,
          .stateWrite "c1" [m1doneEx] 0 500 "active"],
        confirmedCount := 1 } := by
  rw [runOrchestrator_single testEnv defaultRunConfig "" store0Ex c1Ex (by decide)]
  rw [processCommitment_changed_eq testEnv defaultRunConfig
    { store := store0Ex, results := [], trace := [], confirmedCount := 0 }
    c1Ex "TOK" "PAIR" "ray" store2Ex cpEx (1000, 0)
    { milestones := [m1doneEx], ledger := [confEx], results := [resFreshEx],
      trace := [.evalInvoked "c1" m1Ex, .acquireAttempt "c1" m1Ex confEx],
      changed := true, confirmedInc := 1 }
    (by decide) (by decide) ingEx_eq (by decide) (by decide)
    (by rw [ctxEx_eq]; exact msLoopEx_eq) rfl]
  have hunlocked : computeUnlockedLamports [m1doneEx] = 0 := by
    norm_num [computeUnlockedLamports, m1doneEx, JsNum.orZero]
    exact ⟨by decide, by decide⟩
  have hreleased : sumReleasedLamports [m1doneEx] = 0 := by
    norm_num [sumReleasedLamports, m1doneEx, JsNum.orZero]
    decide
  rw [hunlocked, hreleased]
  norm_num [store2Ex, store3Ex, c1Ex, c1doneEx, testEnv]


/-- The second run's store input is the first run's output store; on it the
eligible filter is empty, so the orchestrator does nothing. -/
theorem run2Ex_eq :
    runOrchestrator testEnv defaultRunConfig "" none store3Ex
      = { store := store3Ex, results := [], trace := [], confirmedCount := 0 } :=
  runOrchestrator_none testEnv defaultRunConfig "" none store3Ex (by decide)

/-- C1 counterexample: in a two-run scenario on an eligible commitment with a
locked market-cap milestone and an unchanged feed, the first run confirms the
milestone exactly once, but the second run's `results` array is empty — it
reports nothing at all for the milestone (in particular not
`confirmed: true, idempotent: true`), because the completed milestone makes
the commitment fail the eligible filter.  The ledger/state-unchanged part of
the claim does hold. -/
theorem second_invocation_counterexample :
    m1Ex.status = MilestoneStatus.locked ∧ isMarketCapMilestone m1Ex = true ∧
    m1Ex ∈ c1Ex.milestones ∧ c1Ex ∈ store0Ex.commitments ∧
    ((runOrchestrator testEnv defaultRunConfig "" none store0Ex).store.confirmations.filter
        (fun e => e.commitmentId == "c1" && e.milestoneId == "m1")).length = 1 ∧
    (runOrchestrator testEnv defaultRunConfig "" none
        (runOrchestrator testEnv defaultRunConfig "" none store0Ex).store).results = [] ∧
    (runOrchestrator testEnv defaultRunConfig "" none
        (runOrchestrator testEnv defaultRunConfig "" none store0Ex).store).store
      = (runOrchestrator testEnv defaultRunConfig "" none store0Ex).store := by
  refine ⟨rfl, rfl, by decide, by decide, ?_, ?_, ?_⟩
  · rw [run1Ex_eq]
    decide
  · rw [run1Ex_eq]
    dsimp only
    rw [run2Ex_eq]
  · rw [run1Ex_eq]
    dsimp only
    rw [run2Ex_eq]

/-- The store left behind by a run that crashed after the ledger acquire but
before the commitment state write: the confirmation is persisted, the
milestone is still locked. -/
def storeCrashEx : EscrowStore :=
  { commitments := [c1Ex], canonicalPairs := [], snapshots := [],
    confirmations := [confEx] }

/-- `storeCrashEx` after the resumption run's ingestion. -/
def store2CrashEx : EscrowStore :=
  { commitments := [c1Ex], canonicalPairs := [cpEx], snapshots := [snapEx],
    confirmations := [confEx] }

/-- The idempotent-duplicate result entry. -/
def resIdemEx : ResultEntry :=
  { id := "c1", milestoneId := some "m1", ok := true, step := some "confirm",
    confirmed := some true, idempotent := some true }

theorem stepCrashEx_eq :
    processOneMilestone testEnv defaultRunConfig ctxEx [snapEx] [m1Ex] [confEx] 0 =
      { milestones := [m1Ex], ledger := [confEx], results := [resIdemEx],
        trace := [.evalInvoked "c1" m1Ex, .acquireAttempt "c1" m1Ex confEx],
        changed := false, confirmedInc := 0 } := by
  rw [step_idempotent testEnv defaultRunConfig ctxEx [snapEx] [m1Ex] [confEx] 0 m1Ex
    snapEx confEx rfl (by decide) rfl rfl (by decide) (by decide) (by decide)
    findEx_eq unlockPosEx (by decide) (by decide)]
  rw [confirmationEx_eq]
  norm_num [stepNoop, resIdemEx, ctxEx, m1Ex]

theorem msLoopCrashEx_eq :
    msLoop testEnv defaultRunConfig ctxEx store2CrashEx.snapshots
      (List.range c1Ex.milestones.length)
      { milestones := c1Ex.milestones, ledger := store2CrashEx.confirmations,
        results := [], trace := [], changed := false, confirmedInc := 0 }
    = { milestones := [m1Ex], ledger := [confEx], results := [resIdemEx],
        trace := [.evalInvoked "c1" m1Ex, .acquireAttempt "c1" m1Ex confEx],
        changed := false, confirmedInc := 0 } := by
  have hr : List.range c1Ex.milestones.length = [0] := by decide
  rw [hr]
  show msLoop testEnv defaultRunConfig ctxEx store2CrashEx.snapshots [0]
      { milestones := [m1Ex], ledger := [confEx], results := [], trace := [],
        changed := false, confirmedInc := 0 } = _
  unfold msLoop
  rw [show store2CrashEx.snapshots = [snapEx] from rfl, stepCrashEx_eq]
  unfold msLoop
  rfl

theorem runCrashEx_eq :
    runOrchestrator testEnv defaultRunConfig "" none storeCrashEx =
      { store := store2CrashEx,
        results := [resIdemEx, { id := "c1", ok := true }],
        trace := [.evalInvoked "c1" m1Ex, .acquireAttempt "c1" m1Ex confEx],
        confirmedCount := 0 } := by
  rw [runOrchestrator_single testEnv defaultRunConfig "" storeCrashEx c1Ex (by decide)]
  rw [processCommitment_unchanged_eq testEnv defaultRunConfig
    { store := storeCrashEx, results := [], trace := [], confirmedCount := 0 }
    c1Ex "TOK" "PAIR" "ray" store2CrashEx cpEx (1000, 0)
    { milestones := [m1Ex], ledger := [confEx], results := [resIdemEx],
      trace := [.evalInvoked "c1" m1Ex, .acquireAttempt "c1" m1Ex confEx],
      changed := false, confirmedInc := 0 }
    (by decide) (by decide) (by decide) (by decide) (by decide)
    (by rw [ctxEx_eq]; exact msLoopCrashEx_eq) rfl]
  rfl

/-- C2: a run that resumes after a crash between ledger acquisition and state
commit does not behave as specified.  The pre-crash store has the persisted
confirmation (already carrying `unlockLamports` and `totalFundedLamports`)
and a still-locked milestone; the resumption run (i) re-invokes the
threshold evaluator for that milestone, (ii) reports
`confirmed: true, idempotent: true`, and (iii) performs no commitment state
write at all — the milestone remains locked forever instead of having its
state update re-derived from the ledger entry. -/
theorem crash_resume_never_completes_state_update :
    storeCrashEx.confirmations = [confEx] ∧
    confEx.unlockLamports = 250 ∧ confEx.totalFundedLamports = 500 ∧
    (∀ c ∈ storeCrashEx.commitments, ∀ m ∈ c.milestones,
      m.status = MilestoneStatus.locked ∧ m.completedAtUnix = none) ∧
    TraceEvent.evalInvoked "c1" m1Ex
      ∈ (runOrchestrator testEnv defaultRunConfig "" none storeCrashEx).trace ∧
    resIdemEx ∈ (runOrchestrator testEnv defaultRunConfig "" none storeCrashEx).results ∧
    resIdemEx.idempotent = some true ∧
    (runOrchestrator testEnv defaultRunConfig "" none storeCrashEx).store.commitments
      = storeCrashEx.commitments ∧
    (∀ ev ∈ (runOrchestrator testEnv defaultRunConfig "" none storeCrashEx).trace,
      ∀ cid ms u tf stt, ev ≠ TraceEvent.stateWrite cid ms u tf stt) := by
  refine ⟨rfl, rfl, rfl, by decide, ?_, ?_, rfl, ?_, ?_⟩
  · rw [runCrashEx_eq]
    decide
  · rw [runCrashEx_eq]
    decide
  · rw [runCrashEx_eq]
    rfl
  · rw [runCrashEx_eq]
    intro ev hev
    simp only [List.mem_cons, List.not_mem_nil, or_false] at hev
    rcases hev with h | h <;> subst h <;> intro cid ms u tf stt hc <;> cases hc


theorem second_invocation_skips_confirmed_milestone_witness :
    (∀ c0 ∈ store3Ex.commitments, c0.id = "c1" →
      ∀ m ∈ c0.milestones, m.id = "m1" → m.completedAtUnix ≠ none) ∧
    ((runOrchestrator testEnv defaultRunConfig "" none store3Ex).store.confirmations.filter
        (fun e => e.commitmentId == "c1" && e.milestoneId == "m1")
      = store3Ex.confirmations.filter
        (fun e => e.commitmentId == "c1" && e.milestoneId == "m1")) ∧
    (∀ r ∈ (runOrchestrator testEnv defaultRunConfig "" none store3Ex).results,
        ¬ (r.id = "c1" ∧ r.milestoneId = some "m1")) ∧
    (∀ c' ∈ (runOrchestrator testEnv defaultRunConfig "" none store3Ex).store.commitments,
        c'.id = "c1" → ∀ m' ∈ c'.milestones, m'.id = "m1" →
          ∃ c0 ∈ store3Ex.commitments, c0.id = "c1" ∧ m' ∈ c0.milestones) := by
  have h := second_invocation_skips_confirmed_milestone testEnv defaultRunConfig ""
    none store3Ex "c1" "m1" (by decide)
  exact ⟨by decide, h.1, h.2.1, h.2.2⟩

/-- An existing ledger row whose threshold disagrees with the caller's. -/
def confBadEx : MarketCapConfirmation :=
  { commitmentId := "c1", milestoneId := "m1", tokenMint := "TOK",
    confirmedAtUnix := 900000, totalFundedLamports := 500,
    unlockLamports := 250, thresholdUsd := 999, chainId := "solana",
    pairAddress := "PAIR", dexId := "ray" }

theorem mismatch_surfaced_never_reconciled_witness :
    (processOneMilestone testEnv defaultRunConfig ctxEx [snapEx] [m1Ex] [confBadEx] 0).results
      = [{ id := "c1", milestoneId := some "m1", ok := false,
           step := some "confirm", error := some "Existing confirmation mismatch" }] ∧
    (processOneMilestone testEnv defaultRunConfig ctxEx [snapEx] [m1Ex] [confBadEx] 0).milestones
      = [m1Ex] ∧
    (processOneMilestone testEnv defaultRunConfig ctxEx [snapEx] [m1Ex] [confBadEx] 0).ledger
      = [confBadEx] ∧
    (processOneMilestone testEnv defaultRunConfig ctxEx [snapEx] [m1Ex] [confBadEx] 0).changed
      = false :=
  mismatch_surfaced_never_reconciled testEnv defaultRunConfig ctxEx [snapEx] [m1Ex]
    [confBadEx] 0 m1Ex snapEx confBadEx rfl (by decide) rfl rfl (by decide) (by decide)
    (by decide) findEx_eq unlockPosEx (by decide) (Or.inr (by decide))

/-- The milestone context at chain time `T` + 10 hours (completion observed
at `T` = 1000000). -/
def ctxDelayEx : MilestoneCtx :=
  { commitmentId := "c1", tokenMint := "TOK", chainId := "solana",
    escrowPubkey := "ESC", canonical := cpEx, supplyUi := 1000,
    mintAuthority := none, sinceUnix := 1, nowUnix := 1036000 }

theorem findDelayEx_eq :
    findFirstTokenMarketSnapshotAbovePrice [snapEx] ctxDelayEx.tokenMint ctxDelayEx.chainId
      ctxDelayEx.canonical.pairAddress ctxDelayEx.sinceUnix
      (m1Ex.marketCapThresholdUsd.val / ctxDelayEx.supplyUi)
      defaultRunConfig.minLiquidityUsd defaultRunConfig.minVolumeH1Usd = some snapEx := by
  have hq : m1Ex.marketCapThresholdUsd.val / ctxDelayEx.supplyUi = 1 := by
    norm_num [m1Ex, ctxDelayEx, JsNum.val]
  rw [hq]
  decide

theorem unlockPosDelayEx :
    0 < computeUnlockLamports m1Ex (totalFundedOf testEnv ctxDelayEx [m1Ex]) := by
  have htf : totalFundedOf testEnv ctxDelayEx [m1Ex] = 500 := by
    norm_num [totalFundedOf, sumReleasedLamports, JsNum.orZero, testEnv, ctxDelayEx, m1Ex]
  rw [htf]
  norm_num [computeUnlockLamports, m1Ex, JsNum.finitePos, JsNum.isFinite, JsNum.val]

theorem claim_delay_schedule_witness :
    ∃ m', (processOneMilestone testEnv defaultRunConfig ctxDelayEx [snapEx] [m1Ex] [] 0).milestones
        = [m1Ex].set 0 m' ∧
      m'.completedAtUnix = some (completedAtOf ctxDelayEx snapEx) ∧
      m'.claimableAtUnix
        = some (completedAtOf ctxDelayEx snapEx + defaultRunConfig.claimDelaySeconds) ∧
      m'.status = (if completedAtOf ctxDelayEx snapEx + defaultRunConfig.claimDelaySeconds
          ≤ ctxDelayEx.nowUnix
        then MilestoneStatus.claimable else MilestoneStatus.approved) ∧
      (defaultRunConfig.claimDelaySeconds = 172800 →
        ctxDelayEx.nowUnix = completedAtOf ctxDelayEx snapEx + 36000 →
        m'.status = MilestoneStatus.approved ∧
        m'.claimableAtUnix = some (completedAtOf ctxDelayEx snapEx + 172800)) :=
  claim_delay_schedule testEnv defaultRunConfig ctxDelayEx [snapEx] [m1Ex] [] 0 m1Ex
    snapEx rfl (by decide) rfl rfl (by decide) (by decide) (by decide)
    findDelayEx_eq unlockPosDelayEx rfl

/-- The milestone context when a mint authority is still present. -/
def ctxAuthEx : MilestoneCtx :=
  { commitmentId := "c1", tokenMint := "TOK", chainId := "solana",
    escrowPubkey := "ESC", canonical := cpEx, supplyUi := 1000,
    mintAuthority := some "AUTH", sinceUnix := 1, nowUnix := 1000000 }

theorem mint_authority_present_skips_witness :
    (processOneMilestone testEnv defaultRunConfig ctxAuthEx [snapEx] [m1Ex] [] 0).results
      = [{ id := "c1", milestoneId := some "m1", ok := true,
           step := some "evaluate", confirmed := some false,
           reason := some "mint_authority_present" }] ∧
    (processOneMilestone testEnv defaultRunConfig ctxAuthEx [snapEx] [m1Ex] [] 0).trace
      = [] ∧
    (processOneMilestone testEnv defaultRunConfig ctxAuthEx [snapEx] [m1Ex] [] 0).milestones
      = [m1Ex] ∧
    (processOneMilestone testEnv defaultRunConfig ctxAuthEx [snapEx] [m1Ex] [] 0).ledger
      = [] ∧
    (processOneMilestone testEnv defaultRunConfig ctxAuthEx [snapEx] [m1Ex] [] 0).changed
      = false :=
  mint_authority_present_skips testEnv defaultRunConfig ctxAuthEx [snapEx] [m1Ex] [] 0
    m1Ex rfl (by decide) rfl rfl (by decide) (by decide) rfl

/-- A milestone with a positive absolute unlock amount and a percentage both
set. -/
def mAbsEx : RewardMilestone :=
  { id := "ma", status := .locked, unlockLamports := .num 250,
    unlockPercent := .num 50, autoKind := "market_cap",
    marketCapThresholdUsd := .num 1000, requireNoMintAuthority := none,
    completedAtUnix := none, approvedAtUnix := none, claimableAtUnix := none,
    becameClaimableAtUnix := none, autoConfirmedAtUnix := none,
    autoEvidence := none }

/-- A milestone with neither a positive absolute amount nor a positive
percentage. -/
def mZeroEx : RewardMilestone :=
  { id := "mz", status := .locked, unlockLamports := .num 0,
    unlockPercent := .num 0, autoKind := "market_cap",
    marketCapThresholdUsd := .num 1000, requireNoMintAuthority := none,
    completedAtUnix := none, approvedAtUnix := none, claimableAtUnix := none,
    becameClaimableAtUnix := none, autoConfirmedAtUnix := none,
    autoEvidence := none }

theorem unlock_amount_precedence_witness :
    computeUnlockLamports mAbsEx 500 = ((⌊mAbsEx.unlockLamports.val⌋ : ℤ) : ℚ) ∧
    computeUnlockLamports mNegAbs 200
      = ((⌊(200 : ℚ) * mNegAbs.unlockPercent.val / 100⌋ : ℤ) : ℚ) ∧
    computeUnlockLamports mZeroEx 500 = 0 ∧
    totalFundedOf testEnv ctxEx [m1Ex]
      = max 0 ((testEnv.balanceLamports ctxEx.escrowPubkey : ℚ)
          + sumReleasedLamports [m1Ex]) :=
  ⟨(unlock_amount_precedence mAbsEx 500 testEnv ctxEx [m1Ex]).1 (by decide),
   (unlock_amount_precedence mNegAbs 200 testEnv ctxEx [m1Ex]).2.1 (by decide) (by decide),
   (unlock_amount_precedence mZeroEx 500 testEnv ctxEx [m1Ex]).2.2.1 (by decide) (by decide),
   (unlock_amount_precedence m1Ex 0 testEnv ctxEx [m1Ex]).2.2.2⟩

/-- A best-liquidity candidate on a different pair than the pinned one. -/
def betterEx : DexPair :=
  { chainId := "solana", pairAddress := "PAIR2", dexId := "orca", priceUsd := 3,
    liquidityUsd := 900000, volumeH1Usd := 0, volumeH24Usd := 0,
    fdvUsd := none, marketCapUsd := none, url := none }

/-- A store already holding the pinned canonical pair. -/
def storePinEx : EscrowStore :=
  { commitments := [c1Ex], canonicalPairs := [cpEx], snapshots := [],
    confirmations := [] }

theorem canonical_pin_sticky_witness :
    (∃ p1, getCanonicalPair
        ((ingestLatestSnapshot [betterEx, feedPairEx] storePinEx "TOK" "solana"
          50000 1000000).2).canonicalPairs "TOK" "solana"
        = some p1 ∧ p1.pairAddress = cpEx.pairAddress ∧ p1.dexId = cpEx.dexId) ∧
    (ingestLatestSnapshot [betterEx, feedPairEx] storePinEx "TOK" "solana"
        50000 1000000).1
      = IngestOutcome.ok (jsTrim cpEx.pairAddress) (jsTrim feedPairEx.dexId) :=
  ⟨(canonical_pin_sticky [betterEx, feedPairEx] storePinEx "TOK" "solana" 50000
      1000000).1 "TOK" "solana" cpEx (by decide),
   (canonical_pin_sticky [betterEx, feedPairEx] storePinEx "TOK" "solana" 50000
      1000000).2 cpEx feedPairEx (by decide) (by decide) (by decide) (by decide)
      (by decide)⟩
